import Mathlib

/-!
Verification development for the compose2hcl translation engine
(`src/converter.ts`, `src/validation/compose-validator.ts`, and the package
entry point): a shallow embedding in Lean 4 of the data model and the
operations the specification talks about, together with theorems settling the
specification's claims.

Modelling conventions:
* JavaScript numbers are embedded as `ℚ` (all values the code manipulates are
  exact decimals); `NaN` produced by a failed parse is embedded as `none` in
  `Option`-valued results.  `Math.round` is `jsRound` (round half toward +∞).
* JavaScript truthiness is modelled per type: a string is truthy iff nonempty,
  a number iff nonzero, `undefined`/`null` are falsy (`Option.none`), objects
  and arrays (including the empty array) are always truthy.
* JavaScript objects used as string-keyed maps are embedded as association
  lists in insertion order; property update is `jsSet` (replace in place if
  the key exists, else append), lookup is `lookupJs`.
* Thrown-and-caught exceptions are embedded as `Except`; code that can only
  throw through dynamic typing outside the typed model is abstracted as an
  `Except`-valued parameter where the surrounding catch logic is embedded.
-/

namespace Compose2HCL

/-- JS `Math.round`: rounds half toward positive infinity. -/
def jsRound (q : ℚ) : ℤ := Rat.floor (q + 1/2)

/-- JS `s || default` for an optional string (empty string is falsy). -/
def jsOrStr (o : Option String) (d : String) : String :=
  match o with
  | some s => if s = "" then d else s
  | none => d

/-- JS `n || default` for an optional number (`0` is falsy). -/
def jsOrInt (o : Option ℤ) (d : ℤ) : ℤ :=
  match o with
  | some n => if n = 0 then d else n
  | none => d

/-- JS `n || default` applied to an already-present number (`0` is falsy). -/
def jsOrIntV (n : ℤ) (d : ℤ) : ℤ := if n = 0 then d else n

/-- JS `b || default` for an optional boolean. -/
def jsOrBool (o : Option Bool) (d : Bool) : Bool :=
  match o with
  | some b => b || d
  | none => d

/-- JS `x || ''` where `x` is a string. -/
def jsOrEmpty (s : String) : String := if s = "" then "" else s

/-- Association-list lookup with JS object semantics (the first entry wins;
`jsSet` keeps keys unique, so it is the only entry). -/
def lookupJs {α : Type} (l : List (String × α)) (k : String) : Option α :=
  (l.find? (fun p => p.1 = k)).map (fun p => p.2)

/-- JS object property assignment on an insertion-ordered association list:
if the key exists its value is updated in place, otherwise the pair is
appended. -/
def jsSet {α : Type} (l : List (String × α)) (k : String) (v : α) : List (String × α) :=
  if l.any (fun p => p.1 = k) then
    l.map (fun p => if p.1 = k then (k, v) else p)
  else
    l ++ [(k, v)]

/-- JS `String.prototype.split` on a single separator character, over the
character list of the string: always returns a nonempty list of segments. -/
def splitOnChar (c : Char) : List Char → List (List Char)
  | [] => [[]]
  | x :: xs =>
    if x = c then [] :: splitOnChar c xs
    else
      match splitOnChar c xs with
      | h :: t => (x :: h) :: t
      | [] => [[x]]

/-- JS `Array.prototype.join` with the given separator. -/
def joinSep (sep : List Char) : List (List Char) → List Char
  | [] => []
  | [a] => a
  | a :: b :: t => a ++ sep ++ joinSep sep (b :: t)

mutual

/-- JS `String.prototype.split(/\s+/)`: split on maximal whitespace runs (a
leading run contributes a leading empty segment, a trailing run a trailing
one, matching the JS regex-split behaviour). -/
def splitWsChars : List Char → List (List Char)
  | [] => [[]]
  | c :: cs =>
    if c.isWhitespace then [] :: splitWsSkip cs
    else
      match splitWsChars cs with
      | h :: t => (c :: h) :: t
      | [] => [[c]]

/-- Helper for `splitWsChars`: consume the rest of a whitespace run, then
continue splitting. -/
def splitWsSkip : List Char → List (List Char)
  | [] => [[]]
  | c :: cs =>
    if c.isWhitespace then splitWsSkip cs
    else
      match splitWsChars cs with
      | h :: t => (c :: h) :: t
      | [] => [[c]]

end

/-- Numeric value of a digit list (the JS number a run of digit characters
denotes). -/
def natVal (l : List Char) : ℕ :=
  l.foldl (fun a c => a * 10 + (c.toNat - 48)) 0

/-- Value of a decimal literal `digits` or `digits.digits` as an exact
rational. -/
def numValQ (l : List Char) : ℚ :=
  match l.dropWhile Char.isDigit with
  | '.' :: f => (natVal (l.takeWhile Char.isDigit) : ℚ) + (natVal f : ℚ) / (10 : ℚ) ^ f.length
  | _ => (natVal (l.takeWhile Char.isDigit) : ℚ)

/-- JS `parseFloat`: skip leading whitespace, optional sign, digits with an
optional fractional part and optional exponent; `none` models `NaN` (no
digits found).  Trailing garbage is ignored, as in JS. -/
def jsParseFloat (s : String) : Option ℚ :=
  let l := s.data.dropWhile Char.isWhitespace
  let (sgn, l1) : ℚ × List Char :=
    match l with
    | '+' :: r => (1, r)
    | '-' :: r => (-1, r)
    | _ => (1, l)
  let ip := l1.takeWhile Char.isDigit
  let l2 := l1.dropWhile Char.isDigit
  let (fp, l3) : List Char × List Char :=
    match l2 with
    | '.' :: r => (r.takeWhile Char.isDigit, r.dropWhile Char.isDigit)
    | _ => ([], l2)
  if ip = [] ∧ fp = [] then none
  else
    let mant : ℚ := (natVal ip : ℚ) + (natVal fp : ℚ) / (10 : ℚ) ^ fp.length
    let ex : ℤ :=
      match l3 with
      | 'e' :: r => jsExpVal r
      | 'E' :: r => jsExpVal r
      | _ => 0
    some (sgn * mant * (10 : ℚ) ^ ex)
where
  /-- Exponent part after `e`/`E`: optional sign then digits; an absent or
  malformed exponent contributes factor 1 (JS stops parsing there). -/
  jsExpVal (r : List Char) : ℤ :=
    match r with
    | '+' :: d => (natVal (d.takeWhile Char.isDigit) : ℤ)
    | '-' :: d => -(natVal (d.takeWhile Char.isDigit) : ℤ)
    | d => (natVal (d.takeWhile Char.isDigit) : ℤ)

/-- JS `parseInt` in base 10: skip whitespace, optional sign, leading digits;
`none` models `NaN`. -/
def jsParseInt (s : String) : Option ℤ :=
  let l := s.data.dropWhile Char.isWhitespace
  let (sgn, l1) : ℤ × List Char :=
    match l with
    | '+' :: r => (1, r)
    | '-' :: r => (-1, r)
    | _ => (1, l)
  let ds := l1.takeWhile Char.isDigit
  if ds = [] then none else some (sgn * (natVal ds : ℤ))

/-! ## Compose document model (input)

The repository's `src/types/compose.ts` is not among the provided sources
(only `src/types/nomad.ts` is); the record below lists exactly the fields of
the Compose `Service` (and of the top-level document) that the provided
converter and validator read, with the polymorphic field shapes they
dispatch on (`Array.isArray` / `typeof === 'string'` checks). -/

/-- A scalar appearing as a value of the mapping form of `environment`. -/
inductive EnvScalar : Type
  | str (s : String)
  | int (n : ℤ)
  | bool (b : Bool)
  | null
deriving DecidableEq, Repr

/-- JS `String(value ?? '')` as used by `convertEnvironment` on mapping
values.  Non-integral number formatting is not needed by any claim. -/
def scalarToString : EnvScalar → String
  | .str s => s
  | .int n => toString n
  | .bool b => if b then "true" else "false"
  | .null => ""

/-- The polymorphic `environment` field: ordered `"KEY=VALUE"` array or
key-to-scalar mapping (JS object, given in insertion order). -/
inductive Env : Type
  | arr (xs : List String)
  | map (m : List (String × EnvScalar))
deriving DecidableEq, Repr

/-- A JS value that is either a number or a string (`string | number` fields
such as `cpus`, memory sizes, published ports). -/
inductive NumOrStr : Type
  | num (q : ℚ)
  | str (s : String)
deriving DecidableEq, Repr

/-- JS truthiness of a `string | number` value. -/
def truthyNS : NumOrStr → Bool
  | .num q => q ≠ 0
  | .str s => s ≠ ""

/-- JS truthiness of an optional `string | number` field. -/
def optTruthy (o : Option NumOrStr) : Bool :=
  match o with
  | some v => truthyNS v
  | none => false

/-- The `build` field: short string form or object form. -/
inductive BuildSpec : Type
  | bstr (s : String)
  | bobj (context dockerfile : Option String)
deriving DecidableEq, Repr

/-- A `ports` entry: short string form or long object form. -/
inductive PortT : Type
  | pstr (s : String)
  | pobj (target : Option ℕ) (published : Option NumOrStr)
deriving DecidableEq, Repr

/-- A `volumes` entry: short colon-delimited string form or long object
form. -/
inductive VolT : Type
  | vstr (s : String)
  | vobj (source target : Option String) (read_only : Option Bool) (vtype : Option String)
deriving DecidableEq, Repr

/-- The `depends_on` field; in the mapping form only `Object.keys` is read by
the code, so the mapping form carries its key list. -/
inductive DependsOn : Type
  | arr (l : List String)
  | map (keys : List String)
deriving DecidableEq, Repr

/-- The `networks` field of a service; in the mapping form only
`Object.keys` is read. -/
inductive SvcNetworks : Type
  | arr (l : List String)
  | nmap (keys : List String)
deriving DecidableEq, Repr

/-- A `configs` / `secrets` reference on a service: plain name or
`{source, target}` object. -/
inductive RefT : Type
  | rstr (s : String)
  | robj (source : String) (target : Option String)
deriving DecidableEq, Repr

/-- The test of a healthcheck: shell string or `CMD`/`CMD-SHELL` array. -/
inductive HCTest : Type
  | str (s : String)
  | arr (l : List String)
deriving DecidableEq, Repr

/-- A Compose `healthcheck` block (fields read by the code; `retries` and
`start_period` are never read by the converter or validator). -/
structure HealthCheck : Type where
  test : Option HCTest := none
  interval : Option String := none
  timeout : Option String := none
  disable : Option Bool := none
deriving DecidableEq, Repr

/-- `deploy.restart_policy`. -/
structure RestartPolicyConfig : Type where
  condition : Option String := none
  max_attempts : Option ℕ := none
  delay : Option String := none
  window : Option String := none
deriving DecidableEq, Repr

/-- One side (`limits` or `reservations`) of `deploy.resources`; for
`devices` and `generic_resources` only presence is read (validator
warnings). -/
structure ResourceSpec : Type where
  cpus : Option NumOrStr := none
  memory : Option NumOrStr := none
  devices : Option Unit := none
  generic_resources : Option Unit := none
deriving DecidableEq, Repr

/-- `deploy.resources`. -/
structure ComposeResources : Type where
  limits : Option ResourceSpec := none
  reservations : Option ResourceSpec := none
deriving DecidableEq, Repr

/-- The `deploy` block (fields read by the embedded operations; `placement`
is only read by the task-level conversion, which no claim inspects). -/
structure Deploy : Type where
  replicas : Option ℕ := none
  resources : Option ComposeResources := none
  restart_policy : Option RestartPolicyConfig := none
deriving DecidableEq, Repr

/-- A Compose service (the fields the provided converter and validator
read). -/
structure Service : Type where
  image : Option String := none
  build : Option BuildSpec := none
  ports : Option (List PortT) := none
  expose : Option (List String) := none
  volumes : Option (List VolT) := none
  networks : Option SvcNetworks := none
  depends_on : Option DependsOn := none
  configs : Option (List RefT) := none
  secrets : Option (List RefT) := none
  privileged : Option Bool := none
  pid : Option String := none
  network_mode : Option String := none
  restart : Option String := none
  healthcheck : Option HealthCheck := none
  deploy : Option Deploy := none
  environment : Option Env := none
  cpus : Option NumOrStr := none
  mem_limit : Option NumOrStr := none
deriving DecidableEq, Repr

/-- A top-level `networks` entry. -/
structure NetworkDef : Type where
  driver : Option String := none
  external : Option Bool := none
deriving DecidableEq, Repr

/-- A top-level `volumes` entry. -/
structure VolumeDef : Type where
  driver : Option String := none
  external : Option Bool := none
deriving DecidableEq, Repr

/-- A top-level `configs` entry. -/
structure ConfigDef : Type where
  file : Option String := none
  content : Option String := none
  external : Option Bool := none
deriving DecidableEq, Repr

/-- A top-level `secrets` entry. -/
structure SecretDef : Type where
  file : Option String := none
  external : Option Bool := none
deriving DecidableEq, Repr

/-- An entry of the vendor extension `x.nomad.constraints`: bare string or
`{attribute, operator, value}` object (field names shortened to `attr`,
`op`, `value` because `attribute` is a Lean keyword). -/
inductive XConstraint : Type
  | xstr (s : String)
  | xobj (attr op value : Option String)
deriving DecidableEq, Repr

/-- The parsed Compose document (`DockerComposeFile`); `x_nomad_constraints`
embeds the access path `compose.x?.nomad?.constraints`. -/
structure DockerComposeFile : Type where
  version : Option String := none
  name : Option String := none
  services : Option (List (String × Service)) := none
  networks : Option (List (String × NetworkDef)) := none
  volumes : Option (List (String × VolumeDef)) := none
  configs : Option (List (String × ConfigDef)) := none
  secrets : Option (List (String × SecretDef)) := none
  x_nomad_constraints : Option (List XConstraint) := none
deriving DecidableEq, Repr

/-! ## Nomad job model (output) -/

/-- A Nomad service-discovery health check as built by `convertHealthCheck`
(`type` is always `"script"`). -/
structure Check : Type where
  type : String
  interval : String
  timeout : String
  command : Option String := none
  args : Option (List String) := none
deriving DecidableEq, Repr

/-- A Nomad service-discovery entry as built by `convertToNomadServices`.
The `check` field holds the JS value assigned: an array whose single element
is the result of `convertHealthCheck`, which can be `null` (`Option.none`). -/
structure NomadService : Type where
  name : String
  port : Option String := none
  tags : List String
  check : Option (List (Option Check)) := none
deriving DecidableEq, Repr

/-- A Nomad restart policy as built by `convertRestartPolicy`. -/
structure Restart : Type where
  attempts : ℕ
  delay : String
  interval : String
  mode : String
deriving DecidableEq, Repr

/-- A Nomad `resources` block as built by `convertResources`.  `cpu` is
`Option ℤ` because `parseCpuValue` on an unparseable string yields `NaN`
(embedded as `none`); `memory` is always a number (the memory parser falls
back to the configured default). -/
structure ResourcesOut : Type where
  cpu : Option ℤ
  memory : ℤ
deriving DecidableEq, Repr

/-- A Nomad constraint (source field names `attribute`/`operator`/`value`;
`attribute` is a Lean keyword, hence `attr`/`op`). -/
structure Constraint : Type where
  attr : String
  op : String
  value : String
deriving DecidableEq, Repr

/-- A Nomad task group.  The `task`, `network` and `volume` sub-blocks are
built by `convertServiceToTask` / `convertNetworking` / `convertVolumes`,
which no claim inspects; the group value is carried opaquely through
`convertToNomadJob` (the per-service conversion body is a parameter there,
see `convertServiceToTaskGroup`). -/
structure TaskGroup : Type where
  count : ℕ
  service : Option (List NomadService) := none
  restart : Option Restart := none
deriving DecidableEq, Repr

/-- A Nomad job specification (`namespace` is a Lean keyword, hence
`nspace`). -/
structure JobSpec : Type where
  id : String
  name : String
  type : String
  region : String
  nspace : String
  datacenters : List String
  priority : ℤ
  group : List (String × TaskGroup)
  constraint : Option (List Constraint) := none
deriving DecidableEq, Repr

/-- The wrapper `{ job: { [jobName]: jobSpec } }`; `{job: {}}` is `⟨[]⟩`. -/
structure NomadJob : Type where
  job : List (String × JobSpec)
deriving DecidableEq, Repr

/-! ## Conversion options -/

/-- The optional `resourceDefaults` record of `ConversionOptions`. -/
structure ResourceDefaultsIn : Type where
  cpu : Option ℤ := none
  memory : Option ℤ := none
deriving DecidableEq, Repr

/-- Caller-supplied `ConversionOptions` (every field optional; `namespace`
is a Lean keyword, hence `nspace`). -/
structure ConversionOptions : Type where
  jobName : Option String := none
  nspace : Option String := none
  datacenters : Option (List String) := none
  region : Option String := none
  priority : Option ℤ := none
  skipValidation : Option Bool := none
  includeComments : Option Bool := none
  preserveLabels : Option Bool := none
  networkMode : Option String := none
  resourceDefaults : Option ResourceDefaultsIn := none
deriving DecidableEq, Repr

/-- Effective resource defaults after the constructor's defaulting. -/
structure ResourceDefaults : Type where
  cpu : ℤ
  memory : ℤ
deriving DecidableEq, Repr

/-- `Required<ConversionOptions>`: the converter's effective options. -/
structure ROptions : Type where
  jobName : String
  nspace : String
  datacenters : List String
  region : String
  priority : ℤ
  skipValidation : Bool
  includeComments : Bool
  preserveLabels : Bool
  networkMode : String
  resourceDefaults : ResourceDefaults
deriving DecidableEq, Repr

/-- The `Compose2HCLConverter` constructor: defaulting of every option with
JS `||` (so an explicitly supplied falsy value falls back to the default;
note `datacenters` uses `||` on an array, and arrays — even empty ones —
are truthy, hence plain `getD`). -/
def mkOptions (o : ConversionOptions) : ROptions where
  jobName := jsOrStr o.jobName "docker-compose"
  nspace := jsOrStr o.nspace "default"
  datacenters := o.datacenters.getD ["dc1"]
  region := jsOrStr o.region "global"
  priority := jsOrInt o.priority 50
  skipValidation := jsOrBool o.skipValidation false
  includeComments := jsOrBool o.includeComments true
  preserveLabels := jsOrBool o.preserveLabels true
  networkMode := jsOrStr o.networkMode "bridge"
  resourceDefaults :=
    { cpu := jsOrInt (o.resourceDefaults.bind ResourceDefaultsIn.cpu) 100
      memory := jsOrInt (o.resourceDefaults.bind ResourceDefaultsIn.memory) 128 }

/-! ## Converter operations (src/converter.ts) -/

/-- One step of the array branch of `convertEnvironment`: destructure
`const [key, ...valueParts] = envVar.split('=')`, and if `key` is truthy set
`env[key] = valueParts.join('=') || ''`. -/
def arrEnvStep (env : List (String × String)) (s : String) : List (String × String) :=
  let parts := splitOnChar '=' s.data
  let key := (parts.headD []).asString
  if key ≠ "" then jsSet env key (jsOrEmpty (joinSep ['='] parts.tail).asString)
  else env

/-- `convertEnvironment`: normalize the polymorphic `environment` field to a
flat string-to-string JS object. -/
def convertEnvironment : Option Env → List (String × String)
  | some (.arr xs) => xs.foldl arrEnvStep []
  | some (.map m) => m.foldl (fun env p => jsSet env p.1 (scalarToString p.2)) []
  | none => []

/-- `parseCpuValue`: cores to MHz via x1000 and `Math.round`; `none` models
`NaN` from an unparseable string. -/
def parseCpuValue : NumOrStr → Option ℤ
  | .num q => some (jsRound (q * 1000))
  | .str s => (jsParseFloat s).map (fun q => jsRound (q * 1000))

/-- The regex match `^(\d+(?:\.\d+)?)\s*([kmg]?)b?$` of `parseMemoryValue`,
on an already-lowercased character list.  Returns the numeric literal and
the effective unit character (`match[2] || 'b'`). -/
def memMatch (l : List Char) : Option (List Char × Char) :=
  let ds := l.takeWhile Char.isDigit
  let r1 := l.dropWhile Char.isDigit
  if ds.isEmpty then none
  else
    let pr : List Char × List Char :=
      match r1 with
      | '.' :: r =>
        let fs := r.takeWhile Char.isDigit
        if fs.isEmpty then (ds, r1) else (ds ++ '.' :: fs, r.dropWhile Char.isDigit)
      | _ => (ds, r1)
    let r3 := pr.2.dropWhile Char.isWhitespace
    match r3 with
    | [] => some (pr.1, 'b')
    | [c] =>
      if c = 'k' ∨ c = 'm' ∨ c = 'g' then some (pr.1, c)
      else if c = 'b' then some (pr.1, 'b') else none
    | [c, c2] =>
      if (c = 'k' ∨ c = 'm' ∨ c = 'g') ∧ c2 = 'b' then some (pr.1, c) else none
    | _ => none

/-- The 1024-based unit table of `parseMemoryValue`. -/
def unitMult (c : Char) : ℚ :=
  if c = 'b' then 1
  else if c = 'k' then 1024
  else if c = 'm' then 1024 * 1024
  else if c = 'g' then 1024 * 1024 * 1024
  else 1

/-- `parseMemoryValue`: bytes (numeric) or `digits[.digits][unit]` string to
MB, rounded; on an unparseable string it warns and falls back to
`resourceDefaults.memory || 128` (`defMem` is the effective default). -/
def parseMemoryValue (defMem : ℤ) : NumOrStr → ℤ × List String
  | .num q => (jsRound (q / 1024 / 1024), [])
  | .str s =>
    match memMatch (s.data.map Char.toLower) with
    | none => (jsOrIntV defMem 128, ["Unable to parse memory value: " ++ s])
    | some (lit, u) => (jsRound (numValQ lit * unitMult u / 1024 / 1024), [])

/-- The access path `service.deploy?.resources`. -/
def deployResources (svc : Service) : Option ComposeResources :=
  svc.deploy.bind Deploy.resources

/-- JS `Math.max` on numbers that may be `NaN` (`none`): `NaN` is
absorbing. -/
def maxOptNaN : Option ℤ → Option ℤ → Option ℤ
  | some a, some b => some (max a b)
  | _, _ => none

/-- `convertResources`: defaults, then `deploy.resources` limits and
reservations (reservations raise by `Math.max`), then the legacy top-level
`mem_limit` / `cpus` fields (each applied whenever truthy).  Returns the
resources together with the warnings pushed by memory parsing, in emission
order. -/
def convertResources (o : ROptions) (svc : Service) : ResourcesOut × List String :=
  let cpu0 : Option ℤ := some o.resourceDefaults.cpu
  let mem0 : ℤ := o.resourceDefaults.memory
  let afterDeploy : Option ℤ × ℤ × List String :=
    match deployResources svc with
    | none => (cpu0, mem0, [])
    | some r =>
      let lc := r.limits.bind ResourceSpec.cpus
      let lm := r.limits.bind ResourceSpec.memory
      let rc := r.reservations.bind ResourceSpec.cpus
      let rm := r.reservations.bind ResourceSpec.memory
      let cpuA : Option ℤ :=
        match lc with
        | some v => if truthyNS v then parseCpuValue v else cpu0
        | none => cpu0
      let memA : ℤ × List String :=
        match lm with
        | some v => if truthyNS v then parseMemoryValue o.resourceDefaults.memory v else (mem0, [])
        | none => (mem0, [])
      let cpuB : Option ℤ :=
        match rc with
        | some v => if truthyNS v then maxOptNaN cpuA (parseCpuValue v) else cpuA
        | none => cpuA
      let memB : ℤ × List String :=
        match rm with
        | some v =>
          if truthyNS v then
            let p := parseMemoryValue o.resourceDefaults.memory v
            (max memA.1 p.1, memA.2 ++ p.2)
          else memA
        | none => memA
      (cpuB, memB.1, memB.2)
  let afterMem : ℤ × List String :=
    match svc.mem_limit with
    | some v =>
      if truthyNS v then
        let p := parseMemoryValue o.resourceDefaults.memory v
        (p.1, afterDeploy.2.2 ++ p.2)
      else (afterDeploy.2.1, afterDeploy.2.2)
    | none => (afterDeploy.2.1, afterDeploy.2.2)
  let cpuF : Option ℤ :=
    match svc.cpus with
    | some v => if truthyNS v then parseCpuValue v else afterDeploy.1
    | none => afterDeploy.1
  (⟨cpuF, afterMem.1⟩, afterMem.2)

/-- `getServiceReplicas`: `service.deploy?.replicas || 1`. -/
def getServiceReplicas (svc : Service) : ℕ :=
  match svc.deploy.bind Deploy.replicas with
  | some n => if n = 0 then 1 else n
  | none => 1

/-- `convertHealthCheck`: `null` (`none`) when the healthcheck is disabled;
otherwise a script check with defaulted interval/timeout, whose command is
filled in only from a truthy `test` (`CMD` array, `CMD-SHELL` array, or
shell string).  The caller passes a present healthcheck (the
`!healthcheck` guard is the caller's `Option`). -/
def convertHealthCheck (hc : HealthCheck) : Option Check :=
  if hc.disable = some true then none
  else
    let c0 : Check :=
      { type := "script"
        interval := jsOrStr hc.interval "30s"
        timeout := jsOrStr hc.timeout "5s" }
    match hc.test with
    | none => some c0
    | some (.str s) =>
      if s = "" then some c0
      else some { c0 with command := some "/bin/sh", args := some ["-c", s] }
    | some (.arr l) =>
      if l.head? = some "CMD" then
        some { c0 with command := l[1]?, args := some (l.drop 2) }
      else if l.head? = some "CMD-SHELL" then
        some { c0 with command := some "/bin/sh", args := some ["-c", String.intercalate " " (l.drop 1)] }
      else some c0

/-- An element of the combined port list of `convertToNomadServices`
(`[...(service.ports || []), ...(service.expose || []).map(p => ({target:
parseInt(p)}))]`); only the length of the list is consumed afterwards. -/
inductive PortsElem : Type
  | fromPorts (p : PortT)
  | fromExpose (target : Option ℤ)
deriving DecidableEq, Repr

/-- `convertToNomadServices`: one discovery service per combined port entry
when `ports` or `expose` is declared (arrays are truthy even when empty),
else a single unported service; each carries the fixed tag and, when the
service declares a healthcheck, `check = [convertHealthCheck(...)]`. -/
def convertToNomadServices (svc : Service) (serviceName : String) : List NomadService :=
  let check : Option (List (Option Check)) :=
    svc.healthcheck.map (fun hc => [convertHealthCheck hc])
  if svc.ports.isSome ∨ svc.expose.isSome then
    let ports : List PortsElem :=
      (svc.ports.getD []).map PortsElem.fromPorts ++
        (svc.expose.getD []).map (fun p => PortsElem.fromExpose (jsParseInt p))
    ports.enum.map (fun ie =>
      { name := serviceName ++ "-" ++ toString ie.1
        port := some ("port_" ++ toString ie.1)
        tags := ["docker-compose"]
        check := check })
  else
    [{ name := serviceName, tags := ["docker-compose"], check := check }]

/-- The access path `service.deploy?.restart_policy`. -/
def deployRestartPolicy (svc : Service) : Option RestartPolicyConfig :=
  svc.deploy.bind Deploy.restart_policy

/-- The defaults-plus-`switch (service.restart)` first half of
`convertRestartPolicy`. -/
def restartSwitch (restart : Option String) : Restart :=
  let r0 : Restart := { attempts := 3, delay := "15s", interval := "5m", mode := "delay" }
  match restart with
  | some s =>
    if s = "always" then { r0 with attempts := 0 }
    else if s = "on-failure" then { r0 with mode := "fail" }
    else if s = "no" ∨ s = "unless-stopped" then { r0 with attempts := 0, mode := "fail" }
    else r0
  | none => r0

/-- The `deploy.restart_policy` second half of `convertRestartPolicy`:
condition, then `max_attempts`, `delay`, `window`, each overriding when
present (the two string fields when truthy). -/
def applyRestartPolicyOverrides (r1 : Restart) (p : RestartPolicyConfig) : Restart :=
  let r2 : Restart :=
    if p.condition = some "none" then { r1 with attempts := 0, mode := "fail" }
    else if p.condition = some "on-failure" then { r1 with mode := "fail" }
    else r1
  let r3 : Restart :=
    match p.max_attempts with
    | some n => { r2 with attempts := n }
    | none => r2
  let r4 : Restart :=
    match p.delay with
    | some d => if d ≠ "" then { r3 with delay := d } else r3
    | none => r3
  match p.window with
  | some w => if w ≠ "" then { r4 with interval := w } else r4
  | none => r4

/-- `convertRestartPolicy`: defaults, then the `restart` switch, then the
`deploy.restart_policy` overrides in source order. -/
def convertRestartPolicy (svc : Service) : Restart :=
  let r1 := restartSwitch svc.restart
  match deployRestartPolicy svc with
  | none => r1
  | some p => applyRestartPolicyOverrides r1 p

/-- The fixed list of Nomad constraint operators accepted by
`convertConstraints`. -/
def validOperators : List String :=
  ["=", "!=", ">", ">=", "<", "<=", "distinct_hosts", "distinct_property",
   "regexp", "set_contains", "set_contains_all", "set_contains_any",
   "version", "semver", "is_set", "is_not_set"]

/-- `convertConstraints`: parse each `"attribute operator value"` string
(split on whitespace runs); fewer than three parts means a bare attribute
with `=`/`"true"`, an unrecognized operator falls back to `=`. -/
def convertConstraints (constraints : List String) : List Constraint :=
  constraints.map (fun c =>
    let parts := (splitWsChars c.data).map List.asString
    if parts.length ≥ 3 then
      { attr := parts.headD ""
        op := match parts[1]? with
          | some o => if o ∈ validOperators then o else "="
          | none => "="
        value := String.intercalate " " (parts.drop 2) }
    else
      { attr := c, op := "=", value := "true" })

/-- Stringification of an `x.nomad.constraints` entry:
`` `${c.attribute || ''} ${c.operator || '='} ${c.value || ''}` ``. -/
def xconstraintToString : XConstraint → String
  | .xstr s => s
  | .xobj a o v => jsOrStr a "" ++ " " ++ jsOrStr o "=" ++ " " ++ jsOrStr v ""

/-- `convertServiceToTaskGroup` (the try/catch service boundary): `body` is
the try-block — in the source it can throw only through dynamic typing,
outside the typed model, so it is a parameter here — and the catch appends
`Failed to convert service '<name>': <message>` and yields `null`. -/
def convertServiceToTaskGroup
    (body : String → Service → DockerComposeFile → Except String TaskGroup)
    (compose : DockerComposeFile) (name : String) (svc : Service) :
    Option TaskGroup × List String :=
  match body name svc compose with
  | .ok tg => (some tg, [])
  | .error e => (none, ["Failed to convert service '" ++ name ++ "': " ++ e])

/-- One iteration of the service loop of `convertToNomadJob`:
`if (taskGroup) jobSpec.group[serviceName] = taskGroup`, with the errors the
boundary emitted appended. -/
def svcGroupStep
    (body : String → Service → DockerComposeFile → Except String TaskGroup)
    (compose : DockerComposeFile)
    (acc : List (String × TaskGroup) × List String) (p : String × Service) :
    List (String × TaskGroup) × List String :=
  match convertServiceToTaskGroup body compose p.1 p.2 with
  | (some tg, es) => (jsSet acc.1 p.1 tg, acc.2 ++ es)
  | (none, es) => (acc.1, acc.2 ++ es)

/-- The service loop of `convertToNomadJob`: each service's group is added
under its name when conversion succeeds, errors are accumulated in order. -/
def svcGroupsFold
    (body : String → Service → DockerComposeFile → Except String TaskGroup)
    (compose : DockerComposeFile) (svcs : List (String × Service)) :
    List (String × TaskGroup) × List String :=
  svcs.foldl (svcGroupStep body compose) ([], [])

/-- `convertToNomadJob`: job identity from `compose.name || options.jobName`,
one task group per successfully converted service, job-level constraints
from the vendor extension.  Returns the job together with the errors pushed
at service boundaries. -/
def convertToNomadJob
    (body : String → Service → DockerComposeFile → Except String TaskGroup)
    (o : ROptions) (compose : DockerComposeFile) : NomadJob × List String :=
  let jobName := jsOrStr compose.name o.jobName
  let groupsErrs :=
    match compose.services with
    | some svcs => svcGroupsFold body compose svcs
    | none => ([], [])
  let constraint : Option (List Constraint) :=
    match compose.x_nomad_constraints with
    | some cs =>
      some (convertConstraints ((cs.map xconstraintToString).filter (fun s => s.trim ≠ "")))
    | none => none
  let spec : JobSpec :=
    { id := jobName, name := jobName, type := "service", region := o.region
      nspace := o.nspace, datacenters := o.datacenters, priority := o.priority
      group := groupsErrs.1, constraint := constraint }
  (⟨[(jobName, spec)]⟩, groupsErrs.2)

/-- The flattened group map of a job (for the single-entry jobs built by
`convertToNomadJob` this is exactly the job spec's `group`). -/
def groupsOf (j : NomadJob) : List (String × TaskGroup) :=
  j.job.foldr (fun p acc => p.2.group ++ acc) []

/-! ## Validator (src/validation/compose-validator.ts) -/

/-- The result record of `validateComposeFile`. -/
structure ValidationResult : Type where
  isValid : Bool
  errors : List String
  warnings : List String
deriving DecidableEq, Repr

/-- The port-format regex `^\d+(?::\d+)?(?:\/(?:tcp|udp))?$` of
`validateServices`, as a deterministic matcher. -/
def portFormatOk (s : String) : Bool :=
  let ds := s.data.takeWhile Char.isDigit
  let r1 := s.data.dropWhile Char.isDigit
  if ds.isEmpty then false
  else
    let r2 :=
      match r1 with
      | ':' :: r =>
        let ds2 := r.takeWhile Char.isDigit
        if ds2.isEmpty then none else some (r.dropWhile Char.isDigit)
      | _ => some r1
    match r2 with
    | none => false
    | some rest => rest = [] ∨ rest = ['/', 't', 'c', 'p'] ∨ rest = ['/', 'u', 'd', 'p']

/-- The memory-spec regex `^\d+[bkmg]?$/i` of `isValidMemorySpec`, lifted to
`string | number` the way `RegExp.test` coerces its argument (a
non-negative integer stringifies to bare digits and matches; any other
number does not). -/
def isValidMemorySpec : NumOrStr → Bool
  | .num q => decide (q.den = 1 ∧ 0 ≤ q)
  | .str s =>
    let ds := s.data.takeWhile Char.isDigit
    let r := s.data.dropWhile Char.isDigit
    !ds.isEmpty &&
      (match r with
       | [] => true
       | [c] => ['b', 'k', 'm', 'g'].contains c.toLower
       | _ => false)

/-- `parseFloat` applied to a `string | number` field (JS coerces a number
argument back and forth losslessly). -/
def parseFloatOf : NumOrStr → Option ℚ
  | .num q => some q
  | .str s => jsParseFloat s

/-- `validateResources`: CPU/memory limit well-formedness errors and
device/generic-resource warnings for one service.  Returns
(errors, warnings) in emission order. -/
def validateResources (serviceName : String) (r : ComposeResources) :
    List String × List String :=
  let limPart : List String × List String :=
    match r.limits with
    | none => ([], [])
    | some lim =>
      let cpuErrs :=
        match lim.cpus with
        | some v =>
          if truthyNS v then
            match parseFloatOf v with
            | none => ["Service '" ++ serviceName ++ "' has invalid CPU limit: " ++ showNumOrStr v]
            | some q =>
              if q ≤ 0 then
                ["Service '" ++ serviceName ++ "' has invalid CPU limit: " ++ showNumOrStr v]
              else []
          else []
        | none => []
      let memErrs :=
        match lim.memory with
        | some v =>
          if truthyNS v then
            if isValidMemorySpec v then []
            else ["Service '" ++ serviceName ++ "' has invalid memory limit: " ++ showNumOrStr v]
          else []
        | none => []
      let devWarns :=
        match lim.devices with
        | some _ => ["Service '" ++ serviceName ++ "' uses device limits - ensure Nomad supports required devices"]
        | none => []
      (cpuErrs ++ memErrs, devWarns)
  let resPart : List String × List String :=
    match r.reservations with
    | none => ([], [])
    | some res =>
      let devWarns :=
        match res.devices with
        | some _ => ["Service '" ++ serviceName ++ "' uses device reservations - ensure Nomad supports required devices"]
        | none => []
      let genWarns :=
        match res.generic_resources with
        | some _ => ["Service '" ++ serviceName ++ "' uses generic resources - may need custom Nomad configuration"]
        | none => []
      ([], devWarns ++ genWarns)
  (limPart.1 ++ resPart.1, limPart.2 ++ resPart.2)
where
  /-- Interpolation `${value}` of a `string | number` into a message; the
  decimal rendering of a non-integral number is not needed by any claim. -/
  showNumOrStr : NumOrStr → String
    | .num q => if q.den = 1 then toString q.num else toString q
    | .str s => s

/-- JS truthiness of an optional `build` field (both shapes are objects or
strings; the empty build string is falsy). -/
def truthyBuild : Option BuildSpec → Bool
  | some (.bstr s) => s ≠ ""
  | some (.bobj _ _) => true
  | none => false

/-- The per-service checks of `validateServices`, in source order.  Returns
(errors, warnings) in emission order. -/
def checkService (compose : DockerComposeFile) (serviceName : String) (svc : Service) :
    List String × List String :=
  let imageTruthy : Bool := match svc.image with | some s => s != "" | none => false
  let imageErrs :=
    if !imageTruthy && !truthyBuild svc.build then
      ["Service '" ++ serviceName ++ "' must have either 'image' or 'build' specified"]
    else []
  let portWarns :=
    ((svc.ports.getD []).enum.filterMap (fun ip =>
      match ip.2 with
      | .pstr p =>
        if portFormatOk p then none
        else some ("Service '" ++ serviceName ++ "' port " ++ toString ip.1 ++ " has unusual format: " ++ p)
      | .pobj _ _ => none))
  let volWarns :=
    ((svc.volumes.getD []).enum.filterMap (fun iv =>
      match iv.2 with
      | .vstr v =>
        if (splitOnChar ':' v.data).length > 3 then
          some ("Service '" ++ serviceName ++ "' volume " ++ toString iv.1 ++ " has complex format that may not convert properly: " ++ v)
        else none
      | .vobj _ _ _ _ => none))
  let depErrs :=
    match svc.depends_on with
    | none => []
    | some dep =>
      let deps := match dep with | .arr l => l | .map keys => keys
      deps.filterMap (fun d =>
        match (compose.services.getD []).find? (fun p => p.1 = d) with
        | some _ => none
        | none => some ("Service '" ++ serviceName ++ "' depends on undefined service '" ++ d ++ "'"))
  let netWarns :=
    match svc.networks with
    | none => []
    | some nets =>
      let names := match nets with | .arr l => l | .nmap keys => keys
      names.filterMap (fun n =>
        if n ≠ "default" ∧ ((compose.networks.getD []).find? (fun p => p.1 = n)).isNone then
          some ("Service '" ++ serviceName ++ "' references undefined network '" ++ n ++ "'")
        else none)
  let cfgErrs :=
    (svc.configs.getD []).filterMap (fun c =>
      let cname := match c with | .rstr s => s | .robj src _ => src
      if ((compose.configs.getD []).find? (fun p => p.1 = cname)).isNone then
        some ("Service '" ++ serviceName ++ "' references undefined config '" ++ cname ++ "'")
      else none)
  let secErrs :=
    (svc.secrets.getD []).filterMap (fun c =>
      let sname := match c with | .rstr s => s | .robj src _ => src
      if ((compose.secrets.getD []).find? (fun p => p.1 = sname)).isNone then
        some ("Service '" ++ serviceName ++ "' references undefined secret '" ++ sname ++ "'")
      else none)
  let privWarns :=
    if svc.privileged = some true then
      ["Service '" ++ serviceName ++ "' uses privileged mode - ensure Nomad client allows this"]
    else []
  let pidWarns :=
    if svc.pid = some "host" then
      ["Service '" ++ serviceName ++ "' uses host PID namespace - may not be supported in Nomad"]
    else []
  let netModeWarns :=
    if svc.network_mode = some "host" then
      ["Service '" ++ serviceName ++ "' uses host networking - ensure Nomad configuration supports this"]
    else []
  let resPart :=
    match deployResources svc with
    | some r => validateResources serviceName r
    | none => ([], [])
  (imageErrs ++ depErrs ++ cfgErrs ++ secErrs ++ resPart.1,
   portWarns ++ volWarns ++ netWarns ++ privWarns ++ pidWarns ++ netModeWarns ++ resPart.2)

/-- `validateServices`: a missing `services` section is a single error (an
empty services object passes the truthiness check and yields nothing);
otherwise each service's checks run, exhaustively. -/
def validateServices (compose : DockerComposeFile) : List String × List String :=
  match compose.services with
  | none => (["No services defined"], [])
  | some svcs =>
    svcs.foldl (fun acc p =>
      let r := checkService compose p.1 p.2
      (acc.1 ++ r.1, acc.2 ++ r.2)) ([], [])

/-- `validateNetworks` (warnings only). -/
def validateNetworks (compose : DockerComposeFile) : List String × List String :=
  match compose.networks with
  | none => ([], [])
  | some nets =>
    ([],
     nets.foldl (fun acc p =>
       let drvWarns :=
         match p.2.driver with
         | some d =>
           if d ≠ "" ∧ d ∉ ["bridge", "host", "none", "overlay"] then
             ["Network '" ++ p.1 ++ "' uses driver '" ++ d ++ "' which may not be supported"]
           else []
         | none => []
       let extWarns :=
         if p.2.external = some true then
           ["Network '" ++ p.1 ++ "' is external - ensure it exists in the Nomad environment"]
         else []
       acc ++ drvWarns ++ extWarns) [])

/-- `validateVolumes` (warnings only). -/
def validateVolumes (compose : DockerComposeFile) : List String × List String :=
  match compose.volumes with
  | none => ([], [])
  | some vols =>
    ([],
     vols.foldl (fun acc p =>
       let drvWarns :=
         match p.2.driver with
         | some d =>
           if d ≠ "" ∧ d ≠ "local" then
             ["Volume '" ++ p.1 ++ "' uses driver '" ++ d ++ "' - may need CSI plugin in Nomad"]
           else []
         | none => []
       let extWarns :=
         if p.2.external = some true then
           ["Volume '" ++ p.1 ++ "' is external - ensure it exists in the Nomad environment"]
         else []
       acc ++ drvWarns ++ extWarns) [])

/-- `validateConfigs`: a config must have `file`, `content` or `external`;
external configs warn. -/
def validateConfigs (compose : DockerComposeFile) : List String × List String :=
  match compose.configs with
  | none => ([], [])
  | some cfgs =>
    cfgs.foldl (fun acc p =>
      let errs :=
        if jsOrStr p.2.file "" = "" ∧ jsOrStr p.2.content "" = "" ∧ p.2.external ≠ some true then
          ["Config '" ++ p.1 ++ "' must specify either 'file', 'content', or 'external'"]
        else []
      let warns :=
        if p.2.external = some true then
          ["Config '" ++ p.1 ++ "' is external - will be converted to Vault template"]
        else []
      (acc.1 ++ errs, acc.2 ++ warns)) ([], [])

/-- `validateSecrets`: a secret must have `file` or `external`; external
secrets warn. -/
def validateSecrets (compose : DockerComposeFile) : List String × List String :=
  match compose.secrets with
  | none => ([], [])
  | some secs =>
    secs.foldl (fun acc p =>
      let errs :=
        if jsOrStr p.2.file "" = "" ∧ p.2.external ≠ some true then
          ["Secret '" ++ p.1 ++ "' must specify either 'file' or 'external'"]
        else []
      let warns :=
        if p.2.external = some true then
          ["Secret '" ++ p.1 ++ "' is external - will be converted to Vault template"]
        else []
      (acc.1 ++ errs, acc.2 ++ warns)) ([], [])

/-- `validateComposeFile`.  The Joi structural pass (`composeSchema`, all
fields optional, unknown keys allowed; the stricter `serviceSchema` is dead
code, never referenced by `validate`) accepts every well-typed document, so
it contributes no messages in the typed embedding.  The custom validators
then run exhaustively; `isValid` is `errors.length === 0`. -/
def validateComposeFile (compose : DockerComposeFile) : ValidationResult :=
  let s := validateServices compose
  let n := validateNetworks compose
  let v := validateVolumes compose
  let c := validateConfigs compose
  let sec := validateSecrets compose
  let errors := s.1 ++ n.1 ++ v.1 ++ c.1 ++ sec.1
  let warnings := s.2 ++ n.2 ++ v.2 ++ c.2 ++ sec.2
  { isValid := errors.isEmpty, errors := errors, warnings := warnings }

/-! ## Top-level conversion (src/converter.ts `convert`, package entry point) -/

/-- The result record of `convert`. -/
structure ConversionResult : Type where
  hcl : String
  nomadJob : NomadJob
  warnings : List String
  errors : List String
deriving DecidableEq, Repr

/-- `isSupportedVersion`. -/
def isSupportedVersion (v : String) : Bool :=
  v ∈ ["3", "3.0", "3.1", "3.2", "3.3", "3.4", "3.5", "3.6", "3.7", "3.8", "3.9"] ||
    "3.".isPrefixOf v

/-- `parseCompose` over the external YAML parser `loadYAML` (js-yaml is out
of scope; `.ok none` embeds a parse result that is not an object, `.error`
a parser exception).  Inner failures are rethrown with the
`Failed to parse YAML:` prefix; a present unsupported version pushes a
warning. -/
def parseCompose (loadYAML : String → Except String (Option DockerComposeFile))
    (content : String) : Except String (DockerComposeFile × List String) :=
  match loadYAML content with
  | .error m => .error ("Failed to parse YAML: " ++ m)
  | .ok none => .error ("Failed to parse YAML: " ++ "Invalid YAML structure")
  | .ok (some c) =>
    let ws :=
      match c.version with
      | some v =>
        if v ≠ "" ∧ ¬isSupportedVersion v then
          ["Docker Compose version '" ++ v ++ "' may not be fully supported"]
        else []
      | none => []
    .ok (c, ws)

/-- `convert`: parse, optionally validate (non-empty validation errors
throw, caught at the function's own catch), translate, emit.  The HCL
emitter `generateHCL` lives in `src/generators/hcl-generator.ts`, which is
not among the provided sources and whose output no claim inspects, so it is
a parameter `gen`; on any caught failure the result is the
`# ERROR:`-prefixed placeholder with the empty job.  Total by construction:
every control path returns a `ConversionResult`. -/
def convert (loadYAML : String → Except String (Option DockerComposeFile))
    (gen : NomadJob → Bool → String)
    (body : String → Service → DockerComposeFile → Except String TaskGroup)
    (opts : ConversionOptions) (content : String) : ConversionResult :=
  let o := mkOptions opts
  match parseCompose loadYAML content with
  | .error msg =>
    { hcl := "# ERROR: " ++ msg, nomadJob := ⟨[]⟩, warnings := [], errors := [msg] }
  | .ok (c, ws) =>
    if o.skipValidation then
      let jobErrs := convertToNomadJob body o c
      { hcl := gen jobErrs.1 o.includeComments, nomadJob := jobErrs.1
        warnings := ws, errors := jobErrs.2 }
    else
      let vr := validateComposeFile c
      if vr.errors.isEmpty then
        let jobErrs := convertToNomadJob body o c
        { hcl := gen jobErrs.1 o.includeComments, nomadJob := jobErrs.1
          warnings := ws ++ vr.warnings, errors := jobErrs.2 }
      else
        let msg := "Validation failed: " ++ String.intercalate ", " vr.errors
        { hcl := "# ERROR: " ++ msg, nomadJob := ⟨[]⟩
          warnings := ws ++ vr.warnings, errors := vr.errors ++ [msg] }

/-- The synchronous frame of `convertComposeSync` (package entry point).
The wrapper declares `let result: ConversionResult;`, calls the async
`convert` and registers `r => result = r` with `.then`, then returns
`result!`.  Per JS evaluation order a `.then` continuation is queued as a
microtask and cannot run inside the synchronous frame that registered it
(even on an already-resolved promise), so the frame's return value is the
still-unassigned `result`; the record carries both that returned value and
the queued continuation. -/
structure SyncFrame : Type where
  returned : Option ConversionResult
  microtask : Option ConversionResult → Option ConversionResult

/-- `convertComposeSync`: build the converter, start the conversion, queue
the assignment of its result, and force-unwrap `result` as it stands at
return. -/
def convertComposeSync (loadYAML : String → Except String (Option DockerComposeFile))
    (gen : NomadJob → Bool → String)
    (body : String → Service → DockerComposeFile → Except String TaskGroup)
    (content : String) (opts : ConversionOptions) : SyncFrame :=
  let promised := convert loadYAML gen body opts content
  let result : Option ConversionResult := none
  { returned := result, microtask := fun _ => some promised }

/-! ## Specification-side environment semantics

The following definitions render the specification's words for claim C7
("array entries are split at the first `=`, later `=` characters stay in the
value; when a key appears more than once the last occurrence wins"), to be
compared with `convertEnvironment` as embedded from the source. -/

/-- Specification side: split a `"KEY=VALUE"` entry at the first `=`; the
value is everything after it (empty when there is no `=`). -/
def specSplitFirstEq (s : String) : String × String :=
  ((s.data.takeWhile (fun c => c ≠ '=')).asString,
   (if '=' ∈ s.data then (s.data.dropWhile (fun c => c ≠ '=')).tail else []).asString)

/-- Specification side: the final binding of key `k` in the array form —
the last entry whose (nonempty) key is `k` wins. -/
def specEnvOfArray : List String → String → Option String
  | [], _ => none
  | s :: rest, k =>
    match specEnvOfArray rest k with
    | some v => some v
    | none =>
      let kv := specSplitFirstEq s
      if kv.1 = k ∧ kv.1 ≠ "" then some kv.2 else none

/-- Specification side: the final binding of key `k` in a key-value list
(last occurrence wins). -/
def specLookupLast {α : Type} : List (String × α) → String → Option α
  | [], _ => none
  | p :: rest, k =>
    match specLookupLast rest k with
    | some v => some v
    | none => if p.1 = k then some p.2 else none

/-! ## Concrete sample inputs used by witnesses and counterexamples -/

/-- A `deploy.restart_policy` exercising every override field. -/
def svcPolicyFull : Service :=
  { deploy := some
      { restart_policy := some
          { condition := some "on-failure", max_attempts := some 7
            delay := some "1s", window := some "2m" } } }

/-- A `deploy.restart_policy` with only `condition: none`. -/
def svcPolicyNone : Service :=
  { deploy := some { restart_policy := some { condition := some "none" } } }

/-- The ten ASCII digit characters (used to state "digits-plus-unit"
hypotheses concretely). -/
def digitChars : List Char := ['0', '1', '2', '3', '4', '5', '6', '7', '8', '9']

/-- A try-block body that throws `boom` for the service named `bad` and
yields a single-count task group otherwise. -/
def bodyDemo : String → Service → DockerComposeFile → Except String TaskGroup :=
  fun n _ _ => if n = "bad" then .error "boom" else .ok { count := 1 }

/-- A try-block body that always succeeds. -/
def bodyOk : String → Service → DockerComposeFile → Except String TaskGroup :=
  fun _ _ _ => .ok { count := 1 }

/-- A three-service document whose middle service fails conversion under
`bodyDemo`. -/
def composeDemo : DockerComposeFile :=
  { services := some [("a", {}), ("bad", {}), ("c", {})] }

/-- The document of the spec's concrete scenario: a single service `web`
with neither `image` nor `build`. -/
def webDoc : DockerComposeFile := { services := some [("web", {})] }

/-- A trivial HCL emitter stand-in for witnesses. -/
def genNull : NomadJob → Bool → String := fun _ _ => ""

/-- A service whose healthcheck is disabled (`healthcheck: {disable: true}`). -/
def svcHCDisabled : Service := { healthcheck := some { disable := some true } }

/-- A service whose healthcheck has no `test` (only an interval). -/
def svcHCNoTest : Service := { healthcheck := some { interval := some "10s" } }

/-- The effective options of `new Compose2HCLConverter({})`. -/
def defaultROptions : ROptions := mkOptions {}

/-- A service with both `deploy.resources.limits` values set and the legacy
top-level `cpus` / `mem_limit` fields set. -/
def svcLegacyOverride : Service :=
  { deploy := some
      { resources := some
          { limits := some
              { cpus := some (NumOrStr.num 2)
                memory := some (NumOrStr.num 1073741824) } } }
    cpus := some (NumOrStr.num 1)
    mem_limit := some (NumOrStr.str "256M") }

/-- A service with both limits and reservations under `deploy.resources`
and no legacy fields. -/
def svcResourcesFull : Service :=
  { deploy := some
      { resources := some
          { limits := some
              { cpus := some (NumOrStr.str "0.5")
                memory := some (NumOrStr.str "512M") }
            reservations := some
              { cpus := some (NumOrStr.num 1)
                memory := some (NumOrStr.str "1G") } } } }

/-! ## Helper lemmas -/

theorem jsOrEmpty_eq (s : String) : jsOrEmpty s = s := by
  by_cases h : s = "" <;> simp [jsOrEmpty, h]

theorem lookupJs_cons_pos {α : Type} (p : String × α) (t : List (String × α)) (k : String)
    (h : p.1 = k) : lookupJs (p :: t) k = some p.2 := by
  simp [lookupJs, List.find?_cons_of_pos, h]

theorem lookupJs_cons_neg {α : Type} (p : String × α) (t : List (String × α)) (k : String)
    (h : ¬p.1 = k) : lookupJs (p :: t) k = lookupJs t k := by
  simp [lookupJs, List.find?_cons_of_neg, h]

theorem lookupJs_eq_none_of_not_any {α : Type} (l : List (String × α)) (k : String)
    (h : l.any (fun p => p.1 = k) = false) : lookupJs l k = none := by
  induction l with
  | nil => rfl
  | cons p t ih =>
    simp only [List.any_cons, Bool.or_eq_false_iff] at h
    rw [lookupJs_cons_neg p t k (by simpa using h.1)]
    exact ih h.2

theorem lookupJs_update_self {α : Type} (l : List (String × α)) (k : String) (v : α)
    (hmem : l.any (fun p => p.1 = k) = true) :
    lookupJs (l.map (fun p => if p.1 = k then (k, v) else p)) k = some v := by
  induction l with
  | nil => simp at hmem
  | cons p t ih =>
    by_cases hp : p.1 = k
    · rw [List.map_cons, if_pos hp]
      exact lookupJs_cons_pos (k, v) _ k rfl
    · have hmem' : t.any (fun p => p.1 = k) = true := by
        simpa [hp] using hmem
      rw [List.map_cons, if_neg hp, lookupJs_cons_neg p _ k hp]
      exact ih hmem'

theorem lookupJs_update_ne {α : Type} (l : List (String × α)) (k k' : String) (v : α)
    (h : ¬k' = k) :
    lookupJs (l.map (fun p => if p.1 = k then (k, v) else p)) k' = lookupJs l k' := by
  induction l with
  | nil => rfl
  | cons p t ih =>
    by_cases hp : p.1 = k
    · rw [List.map_cons, if_pos hp,
        lookupJs_cons_neg (k, v) _ k' (by simpa using Ne.symm h),
        lookupJs_cons_neg p t k' (by rw [hp]; exact fun hh => h hh.symm)]
      exact ih
    · rw [List.map_cons, if_neg hp]
      by_cases hq : p.1 = k'
      · rw [lookupJs_cons_pos p _ k' hq, lookupJs_cons_pos p t k' hq]
      · rw [lookupJs_cons_neg p _ k' hq, lookupJs_cons_neg p t k' hq]
        exact ih

theorem lookupJs_jsSet {α : Type} (l : List (String × α)) (k : String) (v : α) (k' : String) :
    lookupJs (jsSet l k v) k' = if k' = k then some v else lookupJs l k' := by
  unfold jsSet
  by_cases hmem : l.any (fun p => p.1 = k) = true
  · rw [if_pos hmem]
    by_cases hk : k' = k
    · subst hk
      rw [if_pos rfl]
      exact lookupJs_update_self l k' v hmem
    · rw [if_neg hk]
      exact lookupJs_update_ne l k k' v hk
  · rw [if_neg hmem]
    by_cases hk : k' = k
    · subst hk
      rw [if_pos rfl]
      have hmem' : l.any (fun p => p.1 = k') = false := by
        simp only [Bool.not_eq_true] at hmem
        exact hmem
      have hnone : lookupJs l k' = none := lookupJs_eq_none_of_not_any l k' hmem'
      simp only [lookupJs, List.find?_append] at *
      rcases hfind : List.find? (fun p => decide (p.1 = k')) l with _ | q
      · rw [hfind]
        have hone : List.find? (fun p => decide (p.1 = k')) [(k', v)] = some (k', v) := by
          simp [List.find?]
        rw [Option.none_or, hone]
        rfl
      · rw [hfind] at hnone
        simp at hnone
    · rw [if_neg hk]
      simp only [lookupJs, List.find?_append]
      have hdk : (k = k') = False := eq_false (fun h => hk h.symm)
      have hsingle : List.find? (fun p => decide (p.1 = k')) [(k, v)] = none := by
        simp [List.find?, hdk]
      rw [hsingle]
      simp

theorem splitOnChar_ne_nil (c : Char) (l : List Char) : splitOnChar c l ≠ [] := by
  induction l with
  | nil => simp [splitOnChar]
  | cons x xs ih =>
    by_cases hx : x = c
    · simp [splitOnChar, hx]
    · simp only [splitOnChar, hx, if_neg, ite_false]
      rcases h : splitOnChar c xs with _ | ⟨hh, tt⟩
      · exact absurd h ih
      · simp

theorem headD_splitOnChar (c : Char) (l : List Char) :
    (splitOnChar c l).headD [] = l.takeWhile (fun x => x ≠ c) := by
  induction l with
  | nil => simp [splitOnChar, List.takeWhile]
  | cons x xs ih =>
    by_cases hx : x = c
    · simp [splitOnChar, hx, List.takeWhile]
    · simp only [splitOnChar, hx, if_neg, ite_false]
      rcases h : splitOnChar c xs with _ | ⟨hh, tt⟩
      · exact absurd h (splitOnChar_ne_nil c xs)
      · simp only [List.headD_cons]
        rw [h] at ih
        simp only [List.headD_cons] at ih
        simp [List.takeWhile, hx, ih]

theorem joinSep_splitOnChar (c : Char) (l : List Char) :
    joinSep [c] (splitOnChar c l) = l := by
  induction l with
  | nil => simp [splitOnChar, joinSep]
  | cons x xs ih =>
    by_cases hx : x = c
    · subst hx
      simp only [splitOnChar, if_pos rfl]
      rcases h : splitOnChar x xs with _ | ⟨hh, tt⟩
      · exact absurd h (splitOnChar_ne_nil x xs)
      · rw [h] at ih
        simp [joinSep, ih]
    · simp only [splitOnChar, hx, if_neg, ite_false]
      rcases h : splitOnChar c xs with _ | ⟨hh, tt⟩
      · exact absurd h (splitOnChar_ne_nil c xs)
      · rw [h] at ih
        cases tt with
        | nil => simpa [joinSep] using ih
        | cons t2 ts => simpa [joinSep] using ih

theorem joinSep_tail_splitOnChar (c : Char) (l : List Char) :
    joinSep [c] (splitOnChar c l).tail =
      if c ∈ l then (l.dropWhile (fun x => x ≠ c)).tail else [] := by
  induction l with
  | nil => simp [splitOnChar, joinSep]
  | cons x xs ih =>
    by_cases hx : x = c
    · subst hx
      simp only [splitOnChar, if_pos rfl, List.tail_cons, List.mem_cons, true_or, if_pos]
      rw [joinSep_splitOnChar]
      simp [List.dropWhile]
    · simp only [splitOnChar, hx, if_neg, ite_false]
      rcases h : splitOnChar c xs with _ | ⟨hh, tt⟩
      · exact absurd h (splitOnChar_ne_nil c xs)
      · rw [h] at ih
        simp only [List.tail_cons] at ih ⊢
        have hdw : List.dropWhile (fun y => decide (y ≠ c)) (x :: xs) =
            List.dropWhile (fun y => decide (y ≠ c)) xs := by
          simp [List.dropWhile, hx]
        by_cases hc : c ∈ xs
        · rw [if_pos (List.mem_cons_of_mem x hc), hdw, ih, if_pos hc]
        · have hnc : c ∉ x :: xs := by
            simp [List.mem_cons, hc, Ne.symm hx]
          rw [if_neg hnc, ih, if_neg hc]

/-! ## Environment normalization lemmas (claim C7) -/

theorem lookup_arrEnvStep (env : List (String × String)) (s : String) (k : String) :
    lookupJs (arrEnvStep env s) k =
      if (specSplitFirstEq s).1 = k ∧ (specSplitFirstEq s).1 ≠ "" then
        some (specSplitFirstEq s).2
      else lookupJs env k := by
  have hkey : ((splitOnChar '=' s.data).headD []).asString = (specSplitFirstEq s).1 := by
    unfold specSplitFirstEq
    rw [headD_splitOnChar]
  have hval : jsOrEmpty (joinSep ['='] (splitOnChar '=' s.data).tail).asString =
      (specSplitFirstEq s).2 := by
    unfold specSplitFirstEq
    rw [jsOrEmpty_eq, joinSep_tail_splitOnChar]
  unfold arrEnvStep
  simp only [hkey, hval]
  by_cases hke : (specSplitFirstEq s).1 = ""
  · rw [if_neg (by simpa using hke)]
    rw [if_neg (by simp [hke])]
  · rw [if_pos (by simpa using hke)]
    rw [lookupJs_jsSet]
    by_cases hkk : (specSplitFirstEq s).1 = k
    · rw [if_pos hkk.symm, if_pos (And.intro hkk hke)]
    · rw [if_neg (fun h => hkk h.symm), if_neg (fun h => hkk h.1)]

theorem lookup_foldl_arr (xs : List String) :
    ∀ (env : List (String × String)) (k : String),
      lookupJs (xs.foldl arrEnvStep env) k =
        match specEnvOfArray xs k with
        | some v => some v
        | none => lookupJs env k := by
  induction xs with
  | nil => intro env k; rfl
  | cons s rest ih =>
    intro env k
    rw [List.foldl_cons, ih]
    rcases h : specEnvOfArray rest k with _ | v
    · simp only [specEnvOfArray, h]
      rw [lookup_arrEnvStep]
      by_cases hc : (specSplitFirstEq s).1 = k ∧ (specSplitFirstEq s).1 ≠ ""
      · rw [if_pos hc, if_pos hc]
      · rw [if_neg hc, if_neg hc]
    · simp only [specEnvOfArray, h]

theorem lookup_foldl_map (m : List (String × EnvScalar)) :
    ∀ (env : List (String × String)) (k : String),
      lookupJs (m.foldl (fun env p => jsSet env p.1 (scalarToString p.2)) env) k =
        match specLookupLast m k with
        | some v => some (scalarToString v)
        | none => lookupJs env k := by
  induction m with
  | nil => intro env k; rfl
  | cons p rest ih =>
    intro env k
    rw [List.foldl_cons, ih]
    rcases h : specLookupLast rest k with _ | v
    · simp only [specLookupLast, h]
      rw [lookupJs_jsSet]
      by_cases hc : p.1 = k
      · rw [if_pos hc.symm, if_pos hc]
      · rw [if_neg (fun hh => hc hh.symm), if_neg hc]
    · simp only [specLookupLast, h]

/-- C7: environment normalization is shape-independent.  (1) The array form
denotes exactly the claim-side semantics: entries split at the first `=`
(later `=` characters stay in the value), empty keys dropped, the last
occurrence of a key winning.  (2) The mapping form denotes its stringified
last-occurrence lookup.  (3) Hence an array and a mapping binding the same
keys to the same stringified final values normalize to the same flat
string-to-string map. -/
theorem convertEnvironment_shape_independent :
    (∀ (xs : List String) (k : String),
       lookupJs (convertEnvironment (some (Env.arr xs))) k = specEnvOfArray xs k) ∧
    (∀ (m : List (String × EnvScalar)) (k : String),
       lookupJs (convertEnvironment (some (Env.map m))) k =
         (specLookupLast m k).map scalarToString) ∧
    (∀ (xs : List String) (m : List (String × EnvScalar)),
       (∀ k, specEnvOfArray xs k = (specLookupLast m k).map scalarToString) →
       ∀ k, lookupJs (convertEnvironment (some (Env.arr xs))) k =
         lookupJs (convertEnvironment (some (Env.map m))) k) := by
  have harr : ∀ (xs : List String) (k : String),
      lookupJs (convertEnvironment (some (Env.arr xs))) k = specEnvOfArray xs k := by
    intro xs k
    show lookupJs (xs.foldl arrEnvStep []) k = _
    rw [lookup_foldl_arr]
    rcases h : specEnvOfArray xs k with _ | v <;> simp [lookupJs]
  have hmap : ∀ (m : List (String × EnvScalar)) (k : String),
      lookupJs (convertEnvironment (some (Env.map m))) k =
        (specLookupLast m k).map scalarToString := by
    intro m k
    show lookupJs (m.foldl _ []) k = _
    rw [lookup_foldl_map]
    rcases h : specLookupLast m k with _ | v <;> simp [lookupJs]
  exact ⟨harr, hmap, fun xs m h k => by rw [harr, hmap, h k]⟩

/-- Witness for C7 at concrete inputs: the array
`["K=a=b", "K=x", "L=2"]` (first-`=` split, duplicate key `K`) and the
mapping `{K: "x", L: 2}` agree. -/
theorem convertEnvironment_shape_independent_witness :
    lookupJs (convertEnvironment (some (Env.arr ["K=a=b", "K=x", "L=2"]))) "K" =
      lookupJs (convertEnvironment (some (Env.map [("K", EnvScalar.str "x"), ("L", EnvScalar.int 2)]))) "K" := by
  have e1 : specSplitFirstEq "K=a=b" = ("K", "a=b") := by decide
  have e2 : specSplitFirstEq "K=x" = ("K", "x") := by decide
  have e3 : specSplitFirstEq "L=2" = ("L", "2") := by decide
  refine convertEnvironment_shape_independent.2.2
    ["K=a=b", "K=x", "L=2"] [("K", EnvScalar.str "x"), ("L", EnvScalar.int 2)] ?_ "K"
  intro k
  by_cases hK : ("K" : String) = k
  · rw [← hK]; decide
  · by_cases hL : ("L" : String) = k
    · rw [← hL]; decide
    · simp [specEnvOfArray, specLookupLast, e1, e2, e3, hK, hL]

/-! ## Option defaulting (claim C10) -/

/-- C10: the constructor's `||`-based defaulting discards explicitly
supplied falsy option values — `priority: 0` becomes 50,
`includeComments: false` becomes true, `preserveLabels: false` becomes
true, whatever the rest of the options record holds. -/
theorem mkOptions_discards_falsy (o : ConversionOptions) :
    (mkOptions { o with priority := some 0 }).priority = 50 ∧
    (mkOptions { o with includeComments := some false }).includeComments = true ∧
    (mkOptions { o with preserveLabels := some false }).preserveLabels = true := by
  refine ⟨?_, ?_, ?_⟩ <;> rfl

/-! ## The synchronous wrapper (claim C9) -/

/-- C9: the force-unwrapped `result` of `convertComposeSync` is still unset
when the synchronous frame returns — the `.then` continuation is only
queued, so the function returns an undefined `ConversionResult` for every
input and options record; draining the queued microtask afterwards would
deliver the conversion's actual result. -/
theorem convertComposeSync_returns_undefined
    (loadYAML : String → Except String (Option DockerComposeFile))
    (gen : NomadJob → Bool → String)
    (body : String → Service → DockerComposeFile → Except String TaskGroup)
    (content : String) (opts : ConversionOptions) :
    (convertComposeSync loadYAML gen body content opts).returned = none ∧
    (convertComposeSync loadYAML gen body content opts).microtask
        (convertComposeSync loadYAML gen body content opts).returned =
      some (convert loadYAML gen body opts content) := by
  exact ⟨rfl, rfl⟩

/-! ## Restart policy mapping (claim C5) -/

/-- C5: `convertRestartPolicy` starts from
`{attempts: 3, delay: "15s", interval: "5m", mode: "delay"}`; with no
`deploy.restart_policy`, `restart: always` yields attempts 0 with mode
unchanged, `on-failure` yields mode `"fail"` with attempts 3 unchanged, and
`no`/`unless-stopped` yield attempts 0 with mode `"fail"`; a present
`deploy.restart_policy` then overrides, in order: `condition "none"` forces
attempts 0 (absent a later `max_attempts` override) and mode `"fail"`,
`condition "on-failure"` forces mode `"fail"`, and `max_attempts`, `delay`,
`window` override attempts, delay and interval when present (and, for the
strings, truthy). -/
theorem convertRestartPolicy_spec (svc : Service) :
    (deployRestartPolicy svc = none →
       (svc.restart = some "always" →
         convertRestartPolicy svc = ⟨0, "15s", "5m", "delay"⟩) ∧
       (svc.restart = some "on-failure" →
         convertRestartPolicy svc = ⟨3, "15s", "5m", "fail"⟩) ∧
       (svc.restart = some "no" ∨ svc.restart = some "unless-stopped" →
         convertRestartPolicy svc = ⟨0, "15s", "5m", "fail"⟩)) ∧
    (∀ p, deployRestartPolicy svc = some p →
       (∀ n, p.max_attempts = some n → (convertRestartPolicy svc).attempts = n) ∧
       (∀ d, p.delay = some d → d ≠ "" → (convertRestartPolicy svc).delay = d) ∧
       (∀ w, p.window = some w → w ≠ "" → (convertRestartPolicy svc).interval = w) ∧
       (p.condition = some "none" → p.max_attempts = none →
         (convertRestartPolicy svc).attempts = 0) ∧
       (p.condition = some "none" → (convertRestartPolicy svc).mode = "fail") ∧
       (p.condition = some "on-failure" → (convertRestartPolicy svc).mode = "fail")) := by
  have hconv : ∀ p, deployRestartPolicy svc = some p →
      convertRestartPolicy svc = applyRestartPolicyOverrides (restartSwitch svc.restart) p := by
    intro p h
    simp [convertRestartPolicy, h]
  constructor
  · intro h
    have hbase : convertRestartPolicy svc = restartSwitch svc.restart := by
      simp [convertRestartPolicy, h]
    refine ⟨?_, ?_, ?_⟩
    · intro hr
      rw [hbase, hr]
      rfl
    · intro hr
      rw [hbase, hr]
      rfl
    · intro hr
      rcases hr with hr | hr <;> rw [hbase, hr] <;> rfl
  · intro p h
    rw [hconv p h]
    generalize restartSwitch svc.restart = r1
    obtain ⟨a, dl, iv, md⟩ := r1
    obtain ⟨cond, maxa, del, win⟩ := p
    refine ⟨?_, ?_, ?_, ?_, ?_, ?_⟩
    · intro n hn
      simp only at hn
      subst hn
      unfold applyRestartPolicyOverrides
      rcases del with _ | d <;> rcases win with _ | w <;>
        simp only [] <;> split_ifs <;> rfl
    · intro d hd hdne
      simp only at hd
      subst hd
      unfold applyRestartPolicyOverrides
      rcases win with _ | w <;> rcases maxa with _ | n <;>
        simp only [] <;> split_ifs <;> rfl
    · intro w hw hwne
      simp only at hw
      subst hw
      unfold applyRestartPolicyOverrides
      rcases del with _ | d <;> rcases maxa with _ | n <;>
        simp only [] <;> split_ifs <;> rfl
    · intro hc hm
      simp only at hc hm
      subst hc
      subst hm
      unfold applyRestartPolicyOverrides
      rcases del with _ | d <;> rcases win with _ | w <;>
        simp only [] <;> split_ifs <;> rfl
    · intro hc
      simp only at hc
      subst hc
      unfold applyRestartPolicyOverrides
      rcases del with _ | d <;> rcases win with _ | w <;> rcases maxa with _ | n <;>
        simp only [] <;> split_ifs <;> rfl
    · intro hc
      simp only at hc
      subst hc
      unfold applyRestartPolicyOverrides
      rcases del with _ | d <;> rcases win with _ | w <;> rcases maxa with _ | n <;>
        simp only [] <;> split_ifs <;> rfl

/-- Witness for C5: the four `restart` switch cases and the
`deploy.restart_policy` overrides at concrete services. -/
theorem convertRestartPolicy_spec_witness :
    convertRestartPolicy { restart := some "always" } = ⟨0, "15s", "5m", "delay"⟩ ∧
    convertRestartPolicy { restart := some "on-failure" } = ⟨3, "15s", "5m", "fail"⟩ ∧
    convertRestartPolicy { restart := some "no" } = ⟨0, "15s", "5m", "fail"⟩ ∧
    convertRestartPolicy { restart := some "unless-stopped" } = ⟨0, "15s", "5m", "fail"⟩ ∧
    (convertRestartPolicy svcPolicyFull).attempts = 7 ∧
    (convertRestartPolicy svcPolicyFull).delay = "1s" ∧
    (convertRestartPolicy svcPolicyFull).interval = "2m" ∧
    (convertRestartPolicy svcPolicyFull).mode = "fail" ∧
    (convertRestartPolicy svcPolicyNone).attempts = 0 ∧
    (convertRestartPolicy svcPolicyNone).mode = "fail" := by
  refine ⟨((convertRestartPolicy_spec { restart := some "always" }).1 rfl).1 rfl,
          ((convertRestartPolicy_spec { restart := some "on-failure" }).1 rfl).2.1 rfl,
          ((convertRestartPolicy_spec { restart := some "no" }).1 rfl).2.2 (Or.inl rfl),
          ((convertRestartPolicy_spec { restart := some "unless-stopped" }).1 rfl).2.2 (Or.inr rfl),
          ((convertRestartPolicy_spec svcPolicyFull).2 _ rfl).1 7 rfl,
          ((convertRestartPolicy_spec svcPolicyFull).2 _ rfl).2.1 "1s" rfl (by decide),
          ((convertRestartPolicy_spec svcPolicyFull).2 _ rfl).2.2.1 "2m" rfl (by decide),
          ((convertRestartPolicy_spec svcPolicyFull).2 _ rfl).2.2.2.2.2 rfl,
          ((convertRestartPolicy_spec svcPolicyNone).2 _ rfl).2.2.2.1 rfl rfl,
          ((convertRestartPolicy_spec svcPolicyNone).2 _ rfl).2.2.2.2.1 rfl⟩

/-! ## Memory parsing lemmas (claim C6) -/

theorem isDigit_of_mem_digitChars (c : Char) (h : c ∈ digitChars) : c.isDigit = true := by
  fin_cases h <;> rfl

theorem toLower_of_mem_digitChars (c : Char) (h : c ∈ digitChars) : c.toLower = c := by
  fin_cases h <;> rfl

theorem map_toLower_digits (ds : List Char) (h : ∀ c ∈ ds, c ∈ digitChars) :
    ds.map Char.toLower = ds := by
  induction ds with
  | nil => rfl
  | cons c t ih =>
    rw [List.map_cons, toLower_of_mem_digitChars c (h c (List.mem_cons_self c t)),
      ih (fun x hx => h x (List.mem_cons_of_mem c hx))]

theorem takeWhile_append_all (p : Char → Bool) (ds : List Char) (u : Char)
    (h : ∀ c ∈ ds, p c = true) (hu : p u = false) :
    (ds ++ [u]).takeWhile p = ds := by
  induction ds with
  | nil => simp [List.takeWhile, hu]
  | cons c t ih =>
    rw [List.cons_append, List.takeWhile_cons, h c (List.mem_cons_self c t)]
    simp only [if_pos]
    rw [ih (fun x hx => h x (List.mem_cons_of_mem c hx))]

theorem dropWhile_append_all (p : Char → Bool) (ds : List Char) (u : Char)
    (h : ∀ c ∈ ds, p c = true) (hu : p u = false) :
    (ds ++ [u]).dropWhile p = [u] := by
  induction ds with
  | nil => simp [List.dropWhile, hu]
  | cons c t ih =>
    rw [List.cons_append, List.dropWhile_cons, h c (List.mem_cons_self c t)]
    simp only [if_pos]
    exact ih (fun x hx => h x (List.mem_cons_of_mem c hx))

theorem takeWhile_all (p : Char → Bool) (ds : List Char) (h : ∀ c ∈ ds, p c = true) :
    ds.takeWhile p = ds := by
  induction ds with
  | nil => rfl
  | cons c t ih =>
    rw [List.takeWhile_cons, h c (List.mem_cons_self c t)]
    simp only [if_pos]
    rw [ih (fun x hx => h x (List.mem_cons_of_mem c hx))]

theorem dropWhile_all (p : Char → Bool) (ds : List Char) (h : ∀ c ∈ ds, p c = true) :
    ds.dropWhile p = [] := by
  induction ds with
  | nil => rfl
  | cons c t ih =>
    rw [List.dropWhile_cons, h c (List.mem_cons_self c t)]
    simp only [if_pos]
    exact ih (fun x hx => h x (List.mem_cons_of_mem c hx))

theorem numValQ_digits (ds : List Char) (h : ∀ c ∈ ds, c ∈ digitChars) :
    numValQ ds = (natVal ds : ℚ) := by
  have hdig : ∀ c ∈ ds, Char.isDigit c = true :=
    fun c hc => isDigit_of_mem_digitChars c (h c hc)
  unfold numValQ
  rw [dropWhile_all Char.isDigit ds hdig, takeWhile_all Char.isDigit ds hdig]

theorem jsRound_eq (q : ℚ) (n : ℤ) (h1 : (n : ℚ) ≤ q + 1/2) (h2 : q + 1/2 < n + 1) :
    jsRound q = n := by
  unfold jsRound
  rw [show Rat.floor (q + 1/2) = ⌊q + 1/2⌋ from rfl]
  exact Int.floor_eq_iff.mpr ⟨h1, by exact_mod_cast h2⟩

theorem memMatch_digits_unit (ds : List Char) (u : Char)
    (hne : ds ≠ []) (hds : ∀ c ∈ ds, c ∈ digitChars) (hu : u ∈ ['b', 'k', 'm', 'g']) :
    memMatch (ds ++ [u]) = some (ds, u) := by
  have hdig : ∀ c ∈ ds, Char.isDigit c = true :=
    fun c hc => isDigit_of_mem_digitChars c (hds c hc)
  have hne' : ds.isEmpty = false := by
    cases ds with
    | nil => exact absurd rfl hne
    | cons c t => rfl
  have hud : Char.isDigit u = false := by fin_cases hu <;> rfl
  have htake := takeWhile_append_all Char.isDigit ds u hdig hud
  have hdrop := dropWhile_append_all Char.isDigit ds u hdig hud
  fin_cases hu <;>
    · unfold memMatch
      simp only [htake, hdrop, hne']
      rfl

/-- C6: memory value parsing — `"512M"` is 512 MB, `"1G"` is 1024 MB, the
numeric byte count `2147483648` is 2048 MB; and in general every
digits-plus-unit string with unit in `{b,k,m,g}` (case-insensitive) is
converted to MB through the 1024-based multiplier table and rounded. -/
theorem parseMemoryValue_spec :
    parseMemoryValue 128 (NumOrStr.str "512M") = (512, []) ∧
    parseMemoryValue 128 (NumOrStr.str "1G") = (1024, []) ∧
    parseMemoryValue 128 (NumOrStr.num 2147483648) = (2048, []) ∧
    (∀ (d : ℤ) (s : String) (ds : List Char) (u : Char),
      s.data = ds ++ [u] → ds ≠ [] → (∀ c ∈ ds, c ∈ digitChars) →
      u.toLower ∈ ['b', 'k', 'm', 'g'] →
      parseMemoryValue d (NumOrStr.str s) =
        (jsRound ((natVal ds : ℚ) * unitMult u.toLower / 1024 / 1024), [])) := by
  have hgen : ∀ (d : ℤ) (s : String) (ds : List Char) (u : Char),
      s.data = ds ++ [u] → ds ≠ [] → (∀ c ∈ ds, c ∈ digitChars) →
      u.toLower ∈ ['b', 'k', 'm', 'g'] →
      parseMemoryValue d (NumOrStr.str s) =
        (jsRound ((natVal ds : ℚ) * unitMult u.toLower / 1024 / 1024), []) := by
    intro d s ds u hdata hne hds hu
    have hmap : s.data.map Char.toLower = ds ++ [u.toLower] := by
      rw [hdata, List.map_append, map_toLower_digits ds hds, List.map_cons, List.map_nil]
    unfold parseMemoryValue
    show (match memMatch (s.data.map Char.toLower) with
          | none => (jsOrIntV d 128, ["Unable to parse memory value: " ++ s])
          | some (lit, u) => (jsRound (numValQ lit * unitMult u / 1024 / 1024), [])) = _
    rw [hmap, memMatch_digits_unit ds u.toLower hne hds hu]
    show (jsRound (numValQ ds * unitMult u.toLower / 1024 / 1024), ([] : List String)) = _
    rw [numValQ_digits ds hds]
  refine ⟨?_, ?_, ?_, hgen⟩
  · rw [hgen 128 "512M" ['5', '1', '2'] 'M' (by decide) (by decide) (by decide) (by decide)]
    rw [show natVal ['5', '1', '2'] = 512 from by decide,
      show ('M'.toLower) = 'm' from by decide,
      show unitMult 'm' = 1024 * 1024 from by simp [unitMult],
      show jsRound ((512 : ℕ) * (1024 * 1024) / 1024 / 1024 : ℚ) = 512 from by
        apply jsRound_eq <;> norm_num]
  · rw [hgen 128 "1G" ['1'] 'G' (by decide) (by decide) (by decide) (by decide)]
    rw [show natVal ['1'] = 1 from by decide,
      show ('G'.toLower) = 'g' from by decide,
      show unitMult 'g' = 1024 * 1024 * 1024 from by simp [unitMult],
      show jsRound ((1 : ℕ) * (1024 * 1024 * 1024) / 1024 / 1024 : ℚ) = 1024 from by
        apply jsRound_eq <;> norm_num]
  · show (jsRound ((2147483648 : ℚ) / 1024 / 1024), ([] : List String)) = (2048, [])
    rw [show jsRound ((2147483648 : ℚ) / 1024 / 1024) = 2048 from by
      apply jsRound_eq <;> norm_num]

/-- Witness for C6's general clause at `"2G"`: two binary gigabytes are
2048 MB. -/
theorem parseMemoryValue_spec_witness :
    parseMemoryValue 128 (NumOrStr.str "2G") = (2048, []) := by
  rw [parseMemoryValue_spec.2.2.2 128 "2G" ['2'] 'G'
    (by decide) (by decide) (by decide) (by decide)]
  rw [show natVal ['2'] = 2 from by decide,
    show ('G'.toLower) = 'g' from by decide,
    show unitMult 'g' = 1024 * 1024 * 1024 from by simp [unitMult],
    show jsRound ((2 : ℕ) * (1024 * 1024 * 1024) / 1024 / 1024 : ℚ) = 2048 from by
      apply jsRound_eq <;> norm_num]

/-! ## Resource computation lemmas (claim C4) -/

theorem convertResources_legacy_cpu (o : ROptions) (svc : Service) (v : NumOrStr)
    (h : svc.cpus = some v) (ht : truthyNS v = true) :
    (convertResources o svc).1.cpu = parseCpuValue v := by
  simp [convertResources, h, ht]

theorem convertResources_legacy_mem (o : ROptions) (svc : Service) (v : NumOrStr)
    (h : svc.mem_limit = some v) (ht : truthyNS v = true) :
    (convertResources o svc).1.memory = (parseMemoryValue o.resourceDefaults.memory v).1 := by
  simp [convertResources, h, ht]

theorem convertResources_defaults (o : ROptions) (svc : Service)
    (hd : deployResources svc = none)
    (hc : optTruthy svc.cpus = false) (hm : optTruthy svc.mem_limit = false) :
    (convertResources o svc).1 = ⟨some o.resourceDefaults.cpu, o.resourceDefaults.memory⟩ := by
  rcases hcp : svc.cpus with _ | w
  · rcases hml : svc.mem_limit with _ | x
    · simp [convertResources, hd, hcp, hml]
    · have hx : truthyNS x = false := by simpa [optTruthy, hml] using hm
      simp [convertResources, hd, hcp, hml, hx]
  · have hw : truthyNS w = false := by simpa [optTruthy, hcp] using hc
    rcases hml : svc.mem_limit with _ | x
    · simp [convertResources, hd, hcp, hml, hw]
    · have hx : truthyNS x = false := by simpa [optTruthy, hml] using hm
      simp [convertResources, hd, hcp, hml, hw, hx]

theorem convertResources_limits_cpu (o : ROptions) (svc : Service) (r : ComposeResources)
    (lv : NumOrStr) (hr : deployResources svc = some r)
    (hlc : r.limits.bind ResourceSpec.cpus = some lv) (htl : truthyNS lv = true)
    (hrc : optTruthy (r.reservations.bind ResourceSpec.cpus) = false)
    (hleg : optTruthy svc.cpus = false) :
    (convertResources o svc).1.cpu = parseCpuValue lv := by
  rcases hcp : svc.cpus with _ | w
  · rcases hrcs : r.reservations.bind ResourceSpec.cpus with _ | rv
    · simp [convertResources, hr, hlc, htl, hrcs, hcp]
    · have hv : truthyNS rv = false := by simpa [optTruthy, hrcs] using hrc
      simp [convertResources, hr, hlc, htl, hrcs, hv, hcp]
  · have hw : truthyNS w = false := by simpa [optTruthy, hcp] using hleg
    rcases hrcs : r.reservations.bind ResourceSpec.cpus with _ | rv
    · simp [convertResources, hr, hlc, htl, hrcs, hcp, hw]
    · have hv : truthyNS rv = false := by simpa [optTruthy, hrcs] using hrc
      simp [convertResources, hr, hlc, htl, hrcs, hv, hcp, hw]

theorem convertResources_limits_res_cpu (o : ROptions) (svc : Service) (r : ComposeResources)
    (lv rv : NumOrStr) (hr : deployResources svc = some r)
    (hlc : r.limits.bind ResourceSpec.cpus = some lv) (htl : truthyNS lv = true)
    (hrc : r.reservations.bind ResourceSpec.cpus = some rv) (htr : truthyNS rv = true)
    (hleg : optTruthy svc.cpus = false) :
    (convertResources o svc).1.cpu = maxOptNaN (parseCpuValue lv) (parseCpuValue rv) := by
  rcases hcp : svc.cpus with _ | w
  · simp [convertResources, hr, hlc, htl, hrc, htr, hcp]
  · have hw : truthyNS w = false := by simpa [optTruthy, hcp] using hleg
    simp [convertResources, hr, hlc, htl, hrc, htr, hcp, hw]

theorem convertResources_res_only_cpu (o : ROptions) (svc : Service) (r : ComposeResources)
    (rv : NumOrStr) (hr : deployResources svc = some r)
    (hlc : optTruthy (r.limits.bind ResourceSpec.cpus) = false)
    (hrc : r.reservations.bind ResourceSpec.cpus = some rv) (htr : truthyNS rv = true)
    (hleg : optTruthy svc.cpus = false) :
    (convertResources o svc).1.cpu =
      maxOptNaN (some o.resourceDefaults.cpu) (parseCpuValue rv) := by
  rcases hcp : svc.cpus with _ | w
  · rcases hlcs : r.limits.bind ResourceSpec.cpus with _ | lv
    · simp [convertResources, hr, hrc, htr, hcp, hlcs]
    · have hv : truthyNS lv = false := by simpa [optTruthy, hlcs] using hlc
      simp [convertResources, hr, hrc, htr, hcp, hlcs, hv]
  · have hw : truthyNS w = false := by simpa [optTruthy, hcp] using hleg
    rcases hlcs : r.limits.bind ResourceSpec.cpus with _ | lv
    · simp [convertResources, hr, hrc, htr, hcp, hlcs, hw]
    · have hv : truthyNS lv = false := by simpa [optTruthy, hlcs] using hlc
      simp [convertResources, hr, hrc, htr, hcp, hlcs, hv, hw]

theorem convertResources_limits_mem (o : ROptions) (svc : Service) (r : ComposeResources)
    (lv : NumOrStr) (hr : deployResources svc = some r)
    (hlm : r.limits.bind ResourceSpec.memory = some lv) (htl : truthyNS lv = true)
    (hrm : optTruthy (r.reservations.bind ResourceSpec.memory) = false)
    (hleg : optTruthy svc.mem_limit = false) :
    (convertResources o svc).1.memory = (parseMemoryValue o.resourceDefaults.memory lv).1 := by
  rcases hcp : svc.mem_limit with _ | w
  · rcases hrms : r.reservations.bind ResourceSpec.memory with _ | rv
    · simp [convertResources, hr, hlm, htl, hrms, hcp]
    · have hv : truthyNS rv = false := by simpa [optTruthy, hrms] using hrm
      simp [convertResources, hr, hlm, htl, hrms, hv, hcp]
  · have hw : truthyNS w = false := by simpa [optTruthy, hcp] using hleg
    rcases hrms : r.reservations.bind ResourceSpec.memory with _ | rv
    · simp [convertResources, hr, hlm, htl, hrms, hcp, hw]
    · have hv : truthyNS rv = false := by simpa [optTruthy, hrms] using hrm
      simp [convertResources, hr, hlm, htl, hrms, hv, hcp, hw]

theorem convertResources_limits_res_mem (o : ROptions) (svc : Service) (r : ComposeResources)
    (lv rv : NumOrStr) (hr : deployResources svc = some r)
    (hlm : r.limits.bind ResourceSpec.memory = some lv) (htl : truthyNS lv = true)
    (hrm : r.reservations.bind ResourceSpec.memory = some rv) (htr : truthyNS rv = true)
    (hleg : optTruthy svc.mem_limit = false) :
    (convertResources o svc).1.memory =
      max (parseMemoryValue o.resourceDefaults.memory lv).1
        (parseMemoryValue o.resourceDefaults.memory rv).1 := by
  rcases hcp : svc.mem_limit with _ | w
  · simp [convertResources, hr, hlm, htl, hrm, htr, hcp]
  · have hw : truthyNS w = false := by simpa [optTruthy, hcp] using hleg
    simp [convertResources, hr, hlm, htl, hrm, htr, hcp, hw]

theorem convertResources_res_only_mem (o : ROptions) (svc : Service) (r : ComposeResources)
    (rv : NumOrStr) (hr : deployResources svc = some r)
    (hlm : optTruthy (r.limits.bind ResourceSpec.memory) = false)
    (hrm : r.reservations.bind ResourceSpec.memory = some rv) (htr : truthyNS rv = true)
    (hleg : optTruthy svc.mem_limit = false) :
    (convertResources o svc).1.memory =
      max o.resourceDefaults.memory (parseMemoryValue o.resourceDefaults.memory rv).1 := by
  rcases hcp : svc.mem_limit with _ | w
  · rcases hlms : r.limits.bind ResourceSpec.memory with _ | lv
    · simp [convertResources, hr, hrm, htr, hcp, hlms]
    · have hv : truthyNS lv = false := by simpa [optTruthy, hlms] using hlm
      simp [convertResources, hr, hrm, htr, hcp, hlms, hv]
  · have hw : truthyNS w = false := by simpa [optTruthy, hcp] using hleg
    rcases hlms : r.limits.bind ResourceSpec.memory with _ | lv
    · simp [convertResources, hr, hrm, htr, hcp, hlms, hw]
    · have hv : truthyNS lv = false := by simpa [optTruthy, hlms] using hlm
      simp [convertResources, hr, hrm, htr, hcp, hlms, hv, hw]

/-- Counterexample to C4 as stated: for a service with
`deploy.resources.limits.cpus = 2` (so, per the claim, the legacy field
should be ignored and the cpu should be `parseCpuValue 2 = 2000`) and
legacy `cpus = 1`, the code yields cpu 1000 — the legacy field overrode an
explicitly set `deploy.resources` value. -/
theorem resources_legacy_override_counterexample :
    (convertResources defaultROptions svcLegacyOverride).1.cpu = some 1000 ∧
    parseCpuValue (NumOrStr.num 2) = some 2000 ∧
    (convertResources defaultROptions svcLegacyOverride).1.cpu ≠ parseCpuValue (NumOrStr.num 2) := by
  have h1 : parseCpuValue (NumOrStr.num 1) = some 1000 := by
    show some (jsRound ((1 : ℚ) * 1000)) = some 1000
    rw [show jsRound ((1 : ℚ) * 1000) = 1000 from by apply jsRound_eq <;> norm_num]
  have h2 : parseCpuValue (NumOrStr.num 2) = some 2000 := by
    show some (jsRound ((2 : ℚ) * 1000)) = some 2000
    rw [show jsRound ((2 : ℚ) * 1000) = 2000 from by apply jsRound_eq <;> norm_num]
  have hcpu : (convertResources defaultROptions svcLegacyOverride).1.cpu = some 1000 := by
    rw [convertResources_legacy_cpu defaultROptions svcLegacyOverride (NumOrStr.num 1) rfl
      (by norm_num [truthyNS])]
    exact h1
  refine ⟨hcpu, h2, ?_⟩
  rw [hcpu, h2]
  decide

/-- C4 (amended): `convertResources` starts from the configured defaults
(100 MHz / 128 MB); `deploy.resources.limits` overrides cpu (cores x1000,
rounded) and memory (1024-based unit table, to MB, rounded) when truthy;
`deploy.resources.reservations` then raises each by `Math.max`; and the
legacy top-level `cpus` / `mem_limit` fields override the respective values
whenever they are present and truthy — unconditionally, even when
`deploy.resources` set them. -/
theorem convertResources_amended (o : ROptions) (svc : Service) :
    (deployResources svc = none → optTruthy svc.cpus = false →
      optTruthy svc.mem_limit = false →
      (convertResources o svc).1 = ⟨some o.resourceDefaults.cpu, o.resourceDefaults.memory⟩) ∧
    (∀ v, svc.cpus = some v → truthyNS v = true →
      (convertResources o svc).1.cpu = parseCpuValue v) ∧
    (∀ v, svc.mem_limit = some v → truthyNS v = true →
      (convertResources o svc).1.memory = (parseMemoryValue o.resourceDefaults.memory v).1) ∧
    (∀ r lv, deployResources svc = some r →
      r.limits.bind ResourceSpec.cpus = some lv → truthyNS lv = true →
      optTruthy (r.reservations.bind ResourceSpec.cpus) = false →
      optTruthy svc.cpus = false →
      (convertResources o svc).1.cpu = parseCpuValue lv) ∧
    (∀ r lv rv, deployResources svc = some r →
      r.limits.bind ResourceSpec.cpus = some lv → truthyNS lv = true →
      r.reservations.bind ResourceSpec.cpus = some rv → truthyNS rv = true →
      optTruthy svc.cpus = false →
      (convertResources o svc).1.cpu = maxOptNaN (parseCpuValue lv) (parseCpuValue rv)) ∧
    (∀ r rv, deployResources svc = some r →
      optTruthy (r.limits.bind ResourceSpec.cpus) = false →
      r.reservations.bind ResourceSpec.cpus = some rv → truthyNS rv = true →
      optTruthy svc.cpus = false →
      (convertResources o svc).1.cpu = maxOptNaN (some o.resourceDefaults.cpu) (parseCpuValue rv)) ∧
    (∀ r lv, deployResources svc = some r →
      r.limits.bind ResourceSpec.memory = some lv → truthyNS lv = true →
      optTruthy (r.reservations.bind ResourceSpec.memory) = false →
      optTruthy svc.mem_limit = false →
      (convertResources o svc).1.memory = (parseMemoryValue o.resourceDefaults.memory lv).1) ∧
    (∀ r lv rv, deployResources svc = some r →
      r.limits.bind ResourceSpec.memory = some lv → truthyNS lv = true →
      r.reservations.bind ResourceSpec.memory = some rv → truthyNS rv = true →
      optTruthy svc.mem_limit = false →
      (convertResources o svc).1.memory =
        max (parseMemoryValue o.resourceDefaults.memory lv).1
          (parseMemoryValue o.resourceDefaults.memory rv).1) ∧
    (∀ r rv, deployResources svc = some r →
      optTruthy (r.limits.bind ResourceSpec.memory) = false →
      r.reservations.bind ResourceSpec.memory = some rv → truthyNS rv = true →
      optTruthy svc.mem_limit = false →
      (convertResources o svc).1.memory =
        max o.resourceDefaults.memory (parseMemoryValue o.resourceDefaults.memory rv).1) :=
  ⟨fun hd hc hm => convertResources_defaults o svc hd hc hm,
   fun v h ht => convertResources_legacy_cpu o svc v h ht,
   fun v h ht => convertResources_legacy_mem o svc v h ht,
   fun r lv hr hlc htl hrc hleg => convertResources_limits_cpu o svc r lv hr hlc htl hrc hleg,
   fun r lv rv hr hlc htl hrc htr hleg =>
     convertResources_limits_res_cpu o svc r lv rv hr hlc htl hrc htr hleg,
   fun r rv hr hlc hrc htr hleg => convertResources_res_only_cpu o svc r rv hr hlc hrc htr hleg,
   fun r lv hr hlm htl hrm hleg => convertResources_limits_mem o svc r lv hr hlm htl hrm hleg,
   fun r lv rv hr hlm htl hrm htr hleg =>
     convertResources_limits_res_mem o svc r lv rv hr hlm htl hrm htr hleg,
   fun r rv hr hlm hrm htr hleg => convertResources_res_only_mem o svc r rv hr hlm hrm htr hleg⟩

/-- Witness for the amended C4: defaults on the empty service, the
unconditional legacy overrides on `svcLegacyOverride`, and the
limits/reservations `Math.max` pattern on `svcResourcesFull`. -/
theorem convertResources_amended_witness :
    (convertResources defaultROptions {}).1 = ⟨some 100, 128⟩ ∧
    (convertResources defaultROptions svcLegacyOverride).1.cpu =
      parseCpuValue (NumOrStr.num 1) ∧
    (convertResources defaultROptions svcLegacyOverride).1.memory =
      (parseMemoryValue 128 (NumOrStr.str "256M")).1 ∧
    (convertResources defaultROptions svcResourcesFull).1.cpu =
      maxOptNaN (parseCpuValue (NumOrStr.str "0.5")) (parseCpuValue (NumOrStr.num 1)) ∧
    (convertResources defaultROptions svcResourcesFull).1.memory =
      max (parseMemoryValue 128 (NumOrStr.str "512M")).1
        (parseMemoryValue 128 (NumOrStr.str "1G")).1 := by
  refine ⟨(convertResources_amended defaultROptions {}).1 rfl rfl rfl,
          (convertResources_amended defaultROptions svcLegacyOverride).2.1
            (NumOrStr.num 1) rfl (by norm_num [truthyNS]),
          (convertResources_amended defaultROptions svcLegacyOverride).2.2.1
            (NumOrStr.str "256M") rfl (by decide),
          (convertResources_amended defaultROptions svcResourcesFull).2.2.2.2.1
            _ (NumOrStr.str "0.5") (NumOrStr.num 1) rfl rfl (by decide) rfl
            (by norm_num [truthyNS]) rfl,
          (convertResources_amended defaultROptions svcResourcesFull).2.2.2.2.2.2.2.1
            _ (NumOrStr.str "512M") (NumOrStr.str "1G") rfl rfl (by decide) rfl
            (by decide) rfl⟩

/-! ## Health check conversion (claim C3) -/

/-- Counterexample to C3 as stated: with `healthcheck: {disable: true}` the
single discovery service carries an explicit check entry `[null]` (the
caller wraps `convertHealthCheck`'s `null` in an array unconditionally),
and with a healthcheck lacking `test` it carries a command-less script
check — in neither case is the check suppressed entirely. -/
theorem healthcheck_disable_counterexample :
    (convertToNomadServices svcHCDisabled "web").map NomadService.check = [some [none]] ∧
    (convertToNomadServices svcHCNoTest "web").map NomadService.check =
      [some [some { type := "script", interval := "10s", timeout := "5s" }]] := by
  exact ⟨by decide, by decide⟩

/-- C3 (amended): whenever a service declares a healthcheck, every
discovery service carries `check = [convertHealthCheck hc]`;
`convertHealthCheck` yields `null` exactly for `disable: true` (so the
emitted check list is `[null]`, not absent), and for a missing `test`
without `disable` it yields a script check with defaulted
interval/timeout and no command.  A check is absent only when the service
has no healthcheck at all. -/
theorem convertHealthCheck_amended (svc : Service) (hc : HealthCheck) (name : String)
    (h : svc.healthcheck = some hc) :
    (∀ ns ∈ convertToNomadServices svc name, ns.check = some [convertHealthCheck hc]) ∧
    (hc.disable = some true → convertHealthCheck hc = none) ∧
    (hc.disable ≠ some true → hc.test = none →
      convertHealthCheck hc =
        some { type := "script", interval := jsOrStr hc.interval "30s",
               timeout := jsOrStr hc.timeout "5s" }) := by
  refine ⟨?_, ?_, ?_⟩
  · intro ns hns
    unfold convertToNomadServices at hns
    rw [h] at hns
    split_ifs at hns
    · rw [List.mem_map] at hns
      obtain ⟨a, _, rfl⟩ := hns
      rfl
    · rw [List.mem_singleton] at hns
      subst hns
      rfl
  · intro hd
    unfold convertHealthCheck
    rw [if_pos hd]
  · intro hd ht
    unfold convertHealthCheck
    rw [if_neg hd, ht]

/-! ## Partial-failure isolation lemmas (claim C1) -/

theorem keys_nodup_unique {α : Type} {l : List (String × α)} {k : String} {a b : α}
    (hnd : (l.map Prod.fst).Nodup) (ha : (k, a) ∈ l) (hb : (k, b) ∈ l) : a = b := by
  induction l with
  | nil => simp at ha
  | cons p rest ih =>
    simp only [List.map_cons, List.nodup_cons] at hnd
    rcases List.mem_cons.mp ha with h1 | h1 <;> rcases List.mem_cons.mp hb with h2 | h2
    · have h3 : (k, a) = (k, b) := h1.trans h2.symm
      exact (Prod.mk.injEq _ _ _ _).mp h3 |>.2
    · exfalso
      apply hnd.1
      have hk : p.1 = k := by rw [← h1]
      rw [hk]
      exact List.mem_map_of_mem Prod.fst h2
    · exfalso
      apply hnd.1
      have hk : p.1 = k := by rw [← h2]
      rw [hk]
      exact List.mem_map_of_mem Prod.fst h1
    · exact ih hnd.2 h1 h2

theorem svcFold_errors_mono
    (body : String → Service → DockerComposeFile → Except String TaskGroup)
    (compose : DockerComposeFile) (svcs : List (String × Service)) :
    ∀ (acc : List (String × TaskGroup) × List String) (x : String), x ∈ acc.2 →
      x ∈ (List.foldl (svcGroupStep body compose) acc svcs).2 := by
  induction svcs with
  | nil => intro acc x hx; exact hx
  | cons p rest ih =>
    intro acc x hx
    rw [List.foldl_cons]
    apply ih
    unfold svcGroupStep
    rcases h : convertServiceToTaskGroup body compose p.1 p.2 with ⟨tg?, es⟩
    rcases tg? with _ | tg
    · exact List.mem_append_left _ hx
    · exact List.mem_append_left _ hx

theorem svcFold_error_mem
    (body : String → Service → DockerComposeFile → Except String TaskGroup)
    (compose : DockerComposeFile) (name : String) (svc : Service) (e : String)
    (herr : body name svc compose = .error e) (svcs : List (String × Service)) :
    ∀ acc, (name, svc) ∈ svcs →
      ("Failed to convert service '" ++ name ++ "': " ++ e) ∈
        (List.foldl (svcGroupStep body compose) acc svcs).2 := by
  induction svcs with
  | nil => intro acc h; simp at h
  | cons p rest ih =>
    intro acc hmem
    rw [List.foldl_cons]
    rcases List.mem_cons.mp hmem with heq | hin
    · apply svcFold_errors_mono
      rw [← heq]
      simp only [svcGroupStep, convertServiceToTaskGroup, herr]
      simp
    · exact ih _ hin

theorem svcFold_lookup_not_mem
    (body : String → Service → DockerComposeFile → Except String TaskGroup)
    (compose : DockerComposeFile) (n : String) (svcs : List (String × Service)) :
    n ∉ svcs.map Prod.fst →
      ∀ acc, lookupJs (List.foldl (svcGroupStep body compose) acc svcs).1 n =
        lookupJs acc.1 n := by
  induction svcs with
  | nil => intro _ acc; rfl
  | cons p rest ih =>
    intro hn acc
    simp only [List.map_cons, List.mem_cons, not_or] at hn
    rw [List.foldl_cons, ih hn.2]
    unfold svcGroupStep
    rcases h : convertServiceToTaskGroup body compose p.1 p.2 with ⟨tg?, es⟩
    rcases tg? with _ | tg
    · rfl
    · show lookupJs (jsSet acc.1 p.1 tg) n = lookupJs acc.1 n
      rw [lookupJs_jsSet, if_neg hn.1]

theorem svcFold_lookup_error
    (body : String → Service → DockerComposeFile → Except String TaskGroup)
    (compose : DockerComposeFile) (name : String) (svcs : List (String × Service)) :
    (∀ s', (name, s') ∈ svcs → ∃ e, body name s' compose = .error e) →
      ∀ acc, lookupJs acc.1 name = none →
        lookupJs (List.foldl (svcGroupStep body compose) acc svcs).1 name = none := by
  induction svcs with
  | nil => intro _ acc h; exact h
  | cons p rest ih =>
    intro hall acc hacc
    rw [List.foldl_cons]
    apply ih (fun s' hs' => hall s' (List.mem_cons_of_mem p hs'))
    unfold svcGroupStep
    rcases h : convertServiceToTaskGroup body compose p.1 p.2 with ⟨tg?, es⟩
    rcases tg? with _ | tg
    · exact hacc
    · by_cases hp : p.1 = name
      · exfalso
        have hpp : (name, p.2) = p := by rw [← hp]
        obtain ⟨e2, he2⟩ := hall p.2 (hpp ▸ List.mem_cons_self p rest)
        rw [convertServiceToTaskGroup, hp, he2] at h
        simp at h
      · show lookupJs (jsSet acc.1 p.1 tg) name = none
        rw [lookupJs_jsSet, if_neg (fun hh => hp hh.symm)]
        exact hacc

theorem svcFold_lookup_ok
    (body : String → Service → DockerComposeFile → Except String TaskGroup)
    (compose : DockerComposeFile) (svcs : List (String × Service)) :
    (svcs.map Prod.fst).Nodup →
      ∀ (n' : String) (s' : Service) (tg : TaskGroup),
        (n', s') ∈ svcs → body n' s' compose = .ok tg →
        ∀ acc, lookupJs (List.foldl (svcGroupStep body compose) acc svcs).1 n' = some tg := by
  induction svcs with
  | nil => intro _ n' s' tg h; simp at h
  | cons p rest ih =>
    intro hnd n' s' tg hmem hok acc
    simp only [List.map_cons, List.nodup_cons] at hnd
    rw [List.foldl_cons]
    rcases List.mem_cons.mp hmem with heq | hin
    · have hp1 : p.1 = n' := by rw [← heq]
      rw [svcFold_lookup_not_mem body compose n' rest (hp1 ▸ hnd.1)]
      rw [← heq]
      simp only [svcGroupStep, convertServiceToTaskGroup, hok]
      show lookupJs (jsSet acc.1 n' tg) n' = some tg
      rw [lookupJs_jsSet, if_pos rfl]
    · exact ih hnd.2 n' s' tg hin hok _

/-- C1: the per-service catch isolates failures.  If the try-block `body`
throws for one service of the document, the job carries an error entry
naming that service, no task group under that service's name appears in
the job, and every service whose conversion succeeds still has its task
group in the job under its name. -/
theorem convert_partialFailure_isolated
    (body : String → Service → DockerComposeFile → Except String TaskGroup)
    (o : ROptions) (compose : DockerComposeFile) (svcs : List (String × Service))
    (name : String) (svc : Service) (e : String)
    (hsv : compose.services = some svcs)
    (hnd : (svcs.map Prod.fst).Nodup)
    (hmem : (name, svc) ∈ svcs)
    (herr : body name svc compose = .error e) :
    ("Failed to convert service '" ++ name ++ "': " ++ e) ∈
      (convertToNomadJob body o compose).2 ∧
    lookupJs (groupsOf (convertToNomadJob body o compose).1) name = none ∧
    (∀ (n2 : String) (s2 : Service) (tg : TaskGroup), (n2, s2) ∈ svcs →
      body n2 s2 compose = .ok tg →
      lookupJs (groupsOf (convertToNomadJob body o compose).1) n2 = some tg) := by
  have hjob : groupsOf (convertToNomadJob body o compose).1 =
      (svcGroupsFold body compose svcs).1 := by
    simp [convertToNomadJob, groupsOf, hsv]
  have herrs2 : (convertToNomadJob body o compose).2 =
      (svcGroupsFold body compose svcs).2 := by
    simp [convertToNomadJob, hsv]
  refine ⟨?_, ?_, ?_⟩
  · rw [herrs2]
    exact svcFold_error_mem body compose name svc e herr svcs ([], []) hmem
  · rw [hjob]
    apply svcFold_lookup_error body compose name svcs ?_ ([], []) rfl
    intro s' hs'
    have hs : s' = svc := keys_nodup_unique hnd hs' hmem
    exact ⟨e, by rw [hs, herr]⟩
  · intro n2 s2 tg hm2 hok2
    rw [hjob]
    exact svcFold_lookup_ok body compose svcs hnd n2 s2 tg hm2 hok2 ([], [])

/-- Witness for C1: of the three services, the failing one (`bad`) yields
the error entry and no group, while service `a` still gets its group. -/
theorem convert_partialFailure_isolated_witness :
    ("Failed to convert service 'bad': boom") ∈
      (convertToNomadJob bodyDemo defaultROptions composeDemo).2 ∧
    lookupJs (groupsOf (convertToNomadJob bodyDemo defaultROptions composeDemo).1) "bad" =
      none ∧
    lookupJs (groupsOf (convertToNomadJob bodyDemo defaultROptions composeDemo).1) "a" =
      some { count := 1 } := by
  have h := convert_partialFailure_isolated bodyDemo defaultROptions composeDemo
    [("a", {}), ("bad", {}), ("c", {})] "bad" {} "boom" rfl (by decide) (by decide) rfl
  exact ⟨h.1, h.2.1, h.2.2 "a" {} { count := 1 } (by decide) rfl⟩

/-! ## Total conversion with error placeholders (claim C2) -/

/-- C2: `convert` is total (every control path of the embedding returns a
`ConversionResult`), and on every top-level failure — unparseable input, a
non-object parse, or non-empty validation errors with validation not
skipped — the result carries an `# ERROR:`-prefixed placeholder as its
`hcl`, the empty job `{job: {}}`, and a non-empty `errors` list containing
the underlying defect messages; for the concrete `web` document lacking
both `image` and `build`, some error contains the substring `web`. -/
theorem convert_total_error_result
    (loadYAML : String → Except String (Option DockerComposeFile))
    (gen : NomadJob → Bool → String)
    (body : String → Service → DockerComposeFile → Except String TaskGroup)
    (opts : ConversionOptions) (content : String) :
    (∀ m, loadYAML content = .error m →
      convert loadYAML gen body opts content =
        { hcl := "# ERROR: " ++ ("Failed to parse YAML: " ++ m)
          nomadJob := ⟨[]⟩
          warnings := []
          errors := ["Failed to parse YAML: " ++ m] }) ∧
    (loadYAML content = .ok none →
      convert loadYAML gen body opts content =
        { hcl := "# ERROR: " ++ ("Failed to parse YAML: " ++ "Invalid YAML structure")
          nomadJob := ⟨[]⟩
          warnings := []
          errors := ["Failed to parse YAML: " ++ "Invalid YAML structure"] }) ∧
    (∀ c, loadYAML content = .ok (some c) → (mkOptions opts).skipValidation = false →
      (validateComposeFile c).errors ≠ [] →
      (convert loadYAML gen body opts content).hcl =
        "# ERROR: " ++ ("Validation failed: " ++
          String.intercalate ", " (validateComposeFile c).errors) ∧
      (convert loadYAML gen body opts content).nomadJob = ⟨[]⟩ ∧
      (convert loadYAML gen body opts content).errors =
        (validateComposeFile c).errors ++
          ["Validation failed: " ++
            String.intercalate ", " (validateComposeFile c).errors] ∧
      (convert loadYAML gen body opts content).errors ≠ []) ∧
    (loadYAML content = .ok (some webDoc) → (mkOptions opts).skipValidation = false →
      ∃ err ∈ (convert loadYAML gen body opts content).errors,
        ∃ a b, err = a ++ "web" ++ b) := by
  have hvalid : ∀ c, loadYAML content = .ok (some c) →
      (mkOptions opts).skipValidation = false →
      (validateComposeFile c).errors ≠ [] →
      (convert loadYAML gen body opts content).hcl =
        "# ERROR: " ++ ("Validation failed: " ++
          String.intercalate ", " (validateComposeFile c).errors) ∧
      (convert loadYAML gen body opts content).nomadJob = ⟨[]⟩ ∧
      (convert loadYAML gen body opts content).errors =
        (validateComposeFile c).errors ++
          ["Validation failed: " ++
            String.intercalate ", " (validateComposeFile c).errors] ∧
      (convert loadYAML gen body opts content).errors ≠ [] := by
    intro c hc hskip hne
    have hF : (validateComposeFile c).errors.isEmpty = false := by
      cases h : (validateComposeFile c).errors with
      | nil => exact absurd h hne
      | cons hd tl => rfl
    refine ⟨?_, ?_, ?_, ?_⟩ <;>
      simp [convert, parseCompose, hc, hskip, hF]
  refine ⟨?_, ?_, hvalid, ?_⟩
  · intro m hm
    simp [convert, parseCompose, hm]
  · intro hm
    simp [convert, parseCompose, hm]
  · intro hc hskip
    have hweb : (validateComposeFile webDoc).errors =
        ["Service 'web' must have either 'image' or 'build' specified"] := by decide
    have h := hvalid webDoc hc hskip (by rw [hweb]; decide)
    refine ⟨"Service 'web' must have either 'image' or 'build' specified", ?_,
      "Service '", "' must have either 'image' or 'build' specified", rfl⟩
    rw [h.2.2.1, hweb]
    exact List.mem_append_left _ (by decide)

/-- Witness for C2 at concrete parsers: a failing parse, and the `web`
document reaching validation under default options. -/
theorem convert_total_error_result_witness :
    convert (fun _ => Except.error "oops") genNull bodyOk {} "x" =
      { hcl := "# ERROR: " ++ ("Failed to parse YAML: " ++ "oops")
        nomadJob := ⟨[]⟩
        warnings := []
        errors := ["Failed to parse YAML: " ++ "oops"] } ∧
    (convert (fun _ => Except.ok (some webDoc)) genNull bodyOk {} "y").nomadJob = ⟨[]⟩ ∧
    (convert (fun _ => Except.ok (some webDoc)) genNull bodyOk {} "y").errors =
      (validateComposeFile webDoc).errors ++
        ["Validation failed: " ++
          String.intercalate ", " (validateComposeFile webDoc).errors] ∧
    (convert (fun _ => Except.ok (some webDoc)) genNull bodyOk {} "y").errors ≠ [] := by
  have h1 := (convert_total_error_result (fun _ => Except.error "oops")
    genNull bodyOk {} "x").1 "oops" rfl
  have h2 := (convert_total_error_result (fun _ => Except.ok (some webDoc))
    genNull bodyOk {} "y").2.2.1 webDoc rfl rfl (by decide)
  exact ⟨h1, h2.2.1, h2.2.2.1, h2.2.2.2⟩

/-! ## Validation exhaustiveness (claim C8) -/

/-- C8: validation is exhaustive, not fail-fast — a document whose first
service lacks both `image` and `build` and whose second service has a
`depends_on` entry naming an undeclared service yields exactly the two
corresponding errors (one per defect), no warnings, and `isValid = false`. -/
theorem validateComposeFile_exhaustive (n1 n2 dep img : String)
    (_h12 : n1 ≠ n2) (hd1 : dep ≠ n1) (hd2 : dep ≠ n2) (himg : img ≠ "") :
    validateComposeFile
      { services := some
          [(n1, {}),
           (n2, { image := some img, depends_on := some (DependsOn.arr [dep]) })] } =
      { isValid := false
        errors := ["Service '" ++ n1 ++ "' must have either 'image' or 'build' specified",
                   "Service '" ++ n2 ++ "' depends on undefined service '" ++ dep ++ "'"]
        warnings := [] } := by
  have hn1 : n1 ≠ dep := Ne.symm hd1
  have hn2 : n2 ≠ dep := Ne.symm hd2
  simp [validateComposeFile, validateServices, checkService, validateNetworks,
    validateVolumes, validateConfigs, validateSecrets, truthyBuild, deployResources,
    List.find?, hn1, hn2, himg]

/-- Witness for C8 at the concrete two-service document. -/
theorem validateComposeFile_exhaustive_witness :
    validateComposeFile
      { services := some
          [("a", {}),
           ("b", { image := some "nginx", depends_on := some (DependsOn.arr ["c"]) })] } =
      { isValid := false
        errors := ["Service 'a' must have either 'image' or 'build' specified",
                   "Service 'b' depends on undefined service 'c'"]
        warnings := [] } := by
  have h := validateComposeFile_exhaustive "a" "b" "c" "nginx"
    (by decide) (by decide) (by decide) (by decide)
  simpa using h

/-- Witness for the amended C3 at the concrete disabled and test-less
healthchecks. -/
theorem convertHealthCheck_amended_witness :
    convertHealthCheck { disable := some true } = none ∧
    convertHealthCheck { interval := some "10s" } =
      some { type := "script", interval := "10s", timeout := "5s" } ∧
    ({ name := "web", tags := ["docker-compose"], check := some [none] } : NomadService).check =
      some [convertHealthCheck { disable := some true }] := by
  refine ⟨(convertHealthCheck_amended svcHCDisabled _ "web" rfl).2.1 rfl,
          (convertHealthCheck_amended svcHCNoTest _ "web" rfl).2.2 (by decide) rfl,
          (convertHealthCheck_amended svcHCDisabled _ "web" rfl).1 _ (by decide)⟩

end Compose2HCL
